import Mathlib

/-!
# Write scheduler of `NutanixGrpcBidiStreamHandler`

A shallow embedding of the write path of
`src/util/net/nutanix_grpc_bidi_stream_handler.h`
(`WriteToStream`, `ProcessNextWrite`, `ScheduleWriteRetry`, `WriteDoneEvent`)
together with the two retry flags of
`src/util/net/nutanix_grpc_bidi_stream_flags.cc`.

Conventions of the embedding.

* A payload handle `shared_ptr<const WriteType>` that is known to be non-null is
  a value of the type parameter `W`; the member `write_val_`, which the
  constructor sets to `nullptr` and which is moved from, is an `Option W`.
* `std::chrono::steady_clock` time points are integers counting milliseconds;
  every read of the clock is an explicit argument of the function reading it.
* `int` is a 32 bit two's complement integer: values are `Int`, and the
  arithmetic of the source is wrapped by `wrap32`.
* Every function returns, next to the new handler state, the list of the
  externally visible events it caused, in the order of the source: taking and
  leaving the scoped lock, `stream_->Write`, and the application callback
  `stream_write_done_cb_`.
* The scoped locker only leaves `lock_acquired` / `lock_released` marks in the
  event list. Its class is not part of the sources; taking the lock again on the
  thread that already holds it (`ProcessNextWrite` called from `WriteDoneEvent`)
  is recorded as a nested pair of marks and does not block.
* `DCHECK`s on members that the code goes on to use (`DCHECK(write_val_)` in
  `WriteDoneEvent`) and `CHECK`s are faults; `DCHECK(!write_val_)` on the idle
  path of `WriteToStream` has no effect on what the function computes and is
  kept as the predicate `WriteToStream_dcheck_idle`.
-/

namespace nutanix.net

/-! ## Data model -/

/-- The enumeration `WriteStatus` of the handler. -/
inductive WriteStatus where
  | kNoError
  | kConcurrentWriteInProgress
  | kAborted
  | kWriteEndClosed
  | kQueuedForRetry
  deriving DecidableEq

/-- The struct `QueuedWrite<WriteType>`: a pending write, the number recorded
as its retry count, and the earliest time at which it may be dispatched. -/
structure QueuedWrite (W : Type) where
  write_val : W
  retry_count : Int
  next_retry : Int
  deriving DecidableEq

/-- The constructor `QueuedWrite(shared_ptr<const WriteType>&& val)`:
retry count 0 and `next_retry` the clock value read in the constructor. -/
def QueuedWrite.ctor {W : Type} (val : W) (now : Int) : QueuedWrite W :=
  { write_val := val, retry_count := 0, next_retry := now }

/-- The members of `NutanixGrpcBidiStreamHandler` that the write path reads or
writes. `write_queue_` is a `std::queue`: `push` appends at the back of the
list, `front` and `pop` act on its head. -/
structure NutanixGrpcBidiStreamHandler (W : Type) where
  write_queue_ : List (QueuedWrite W)
  max_write_retry_attempts_ : Int
  write_retry_initial_delay_ms_ : Int
  write_val_ : Option W
  writes_done_ : Bool
  write_in_progress_ : Bool
  stream_finished_ : Bool
  stream_cancelled_ : Bool
  deriving DecidableEq

/-- Externally visible events of the write path. -/
inductive Event (W : Type) where
  | lock_acquired
  | lock_released
  | stream_Write (p : W)
  | stream_write_done_cb (st : WriteStatus) (p : W)
  deriving DecidableEq

/-- Faults that end the process inside `WriteDoneEvent`. -/
inductive Fault where
  | dcheck_write_val
  | check_write_in_progress
  deriving DecidableEq

/-- Payloads handed to `stream_->Write` by a list of events, in order. -/
def submitted {W : Type} : List (Event W) → List W
  | [] => []
  | Event.stream_Write p :: es => p :: submitted es
  | _ :: es => submitted es

/-- Invocations of `stream_write_done_cb_` in a list of events, in order. -/
def callbacks {W : Type} : List (Event W) → List (WriteStatus × W)
  | [] => []
  | Event.stream_write_done_cb st p :: es => (st, p) :: callbacks es
  | _ :: es => callbacks es

/-! ## Machine integers -/

/-- A mathematical integer reduced to the 32 bit two's complement range. -/
def wrap32 (x : Int) : Int := (x + 2147483648) % 4294967296 - 2147483648

/-- The expression `x << n` on `int`. For `0 ≤ n ≤ 31` this is the wrapped
product `x * 2^n`; a count outside that range is undefined in the source
language and is reduced modulo 32 here, as the shift instruction does. -/
def shl32 (x n : Int) : Int := wrap32 (x * 2 ^ (n % 32).toNat)

/-- The flag defaults of `nutanix_grpc_bidi_stream_flags.cc`. -/
def FLAGS_grpc_write_retry_max_attempts : Int := 3

/-- The default of the flag `grpc_write_retry_initial_delay_ms`. -/
def FLAGS_grpc_write_retry_initial_delay_ms : Int := 100

/-! ## Operations -/

variable {W : Type}

/-- The constructor: members as in its initialiser list, the two retry
parameters taken from the flag values given. -/
def NutanixGrpcBidiStreamHandler.ctor (W : Type) (flag_max_attempts flag_initial_delay_ms : Int) :
    NutanixGrpcBidiStreamHandler W :=
  { write_queue_ := []
    max_write_retry_attempts_ := flag_max_attempts
    write_retry_initial_delay_ms_ := flag_initial_delay_ms
    write_val_ := none
    writes_done_ := false
    write_in_progress_ := false
    stream_finished_ := false
    stream_cancelled_ := false }

/-- The method `ProcessNextWrite()`; `now` is the clock value read after the
first test. -/
def ProcessNextWrite (s : NutanixGrpcBidiStreamHandler W) (now : Int) :
    NutanixGrpcBidiStreamHandler W × List (Event W) :=
  if s.write_in_progress_ || s.write_queue_.isEmpty ||
      s.writes_done_ || s.stream_cancelled_ || s.stream_finished_ then
    (s, [Event.lock_acquired, Event.lock_released])
  else
    match s.write_queue_ with
    | [] => (s, [Event.lock_acquired, Event.lock_released])
    | next_write :: rest =>
      if now < next_write.next_retry then
        (s, [Event.lock_acquired, Event.lock_released])
      else
        ({ s with
            write_in_progress_ := true
            write_val_ := some next_write.write_val
            write_queue_ := rest },
         [Event.lock_acquired, Event.stream_Write next_write.write_val, Event.lock_released])

/-- The method `ScheduleWriteRetry(write_val, retry_count)`. The argument is an rvalue
reference: the second component of the result is what is left in the caller's
handle afterwards. Moving it into the new `QueuedWrite` empties it. On the
abort path the handle is passed on to `stream_write_done_cb_`, whose type
`StreamWriteDoneFunc` is not in the sources: `cb_takes_handle` says whether the
callback moves the handle out. `now` is the clock value read for `next_retry`
(the value read by the `QueuedWrite` constructor is overwritten). -/
def ScheduleWriteRetry (cb_takes_handle : Bool) (s : NutanixGrpcBidiStreamHandler W)
    (write_val : W) (retry_count : Int) (now : Int) :
    NutanixGrpcBidiStreamHandler W × Option W × List (Event W) :=
  if retry_count ≥ s.max_write_retry_attempts_ then
    (s, (if cb_takes_handle then none else some write_val),
      [Event.stream_write_done_cb WriteStatus.kAborted write_val])
  else
    let queued_write := QueuedWrite.ctor write_val now
    let queued_write := { queued_write with retry_count := retry_count }
    let delay_ms := wrap32 (s.write_retry_initial_delay_ms_ * shl32 1 retry_count)
    let queued_write := { queued_write with next_retry := now + delay_ms }
    ({ s with write_queue_ := s.write_queue_ ++ [queued_write] }, none, [])

/-- The retry count that `WriteDoneEvent` computes on failure
(`int retry_count = 0; if (!write_queue_.empty()) ...front().retry_count + 1`). -/
def failure_retry_count (s : NutanixGrpcBidiStreamHandler W) : Int :=
  match s.write_queue_ with
  | [] => 0
  | front :: _ => wrap32 (front.retry_count + 1)

/-- The method `WriteDoneEvent(ok)`. `now_retry` is the clock value read inside
`ScheduleWriteRetry`, `now_next` the one read inside `ProcessNextWrite`. -/
def WriteDoneEvent (cb_takes_handle : Bool) (s : NutanixGrpcBidiStreamHandler W)
    (ok : Bool) (now_retry now_next : Int) :
    Except Fault (NutanixGrpcBidiStreamHandler W × List (Event W)) :=
  match s.write_val_ with
  | none => Except.error Fault.dcheck_write_val
  | some cur =>
    if !s.write_in_progress_ then
      Except.error Fault.check_write_in_progress
    else if !ok then
      let s1 := { s with write_in_progress_ := false }
      let retry_count := failure_retry_count s1
      let r := ScheduleWriteRetry cb_takes_handle s1 cur retry_count now_retry
      let s2 := { r.1 with write_val_ := r.2.1 }
      let n := ProcessNextWrite s2 now_next
      Except.ok (n.1, [Event.lock_acquired] ++ r.2.2 ++ n.2 ++ [Event.lock_released])
    else
      let tmp_write_val := cur
      let s1 := { s with write_val_ := none }
      let s2 := { s1 with write_in_progress_ := false }
      let n := ProcessNextWrite s2 now_next
      Except.ok (n.1, [Event.lock_acquired] ++ n.2 ++
        [Event.stream_write_done_cb WriteStatus.kNoError tmp_write_val, Event.lock_released])

/-- The condition of `DCHECK(!write_val_)` on the idle path of `WriteToStream`. -/
def WriteToStream_dcheck_idle (s : NutanixGrpcBidiStreamHandler W) : Bool :=
  s.write_val_.isNone

/-- The method `WriteToStream(write_val)`; `now` is the clock value read by the
`QueuedWrite` constructor on the queueing path. -/
def WriteToStream (s : NutanixGrpcBidiStreamHandler W) (write_val : W) (now : Int) :
    NutanixGrpcBidiStreamHandler W × WriteStatus × List (Event W) :=
  if s.writes_done_ || s.stream_cancelled_ || s.stream_finished_ then
    (s, WriteStatus.kWriteEndClosed, [Event.lock_acquired, Event.lock_released])
  else if s.write_in_progress_ then
    let queued_write := QueuedWrite.ctor write_val now
    ({ s with write_queue_ := s.write_queue_ ++ [queued_write] },
      WriteStatus.kQueuedForRetry, [Event.lock_acquired, Event.lock_released])
  else
    ({ s with write_in_progress_ := true, write_val_ := some write_val },
      WriteStatus.kNoError,
      [Event.lock_acquired, Event.stream_Write write_val, Event.lock_released])

/-- Events of a `WriteDoneEvent` outcome; a fault ends the process before any
event of the call. -/
def outcome_events (r : Except Fault (NutanixGrpcBidiStreamHandler W × List (Event W))) :
    List (Event W) :=
  match r with
  | Except.ok x => x.2
  | Except.error _ => []

/-- The handler state of a `WriteDoneEvent` outcome, when it returned. -/
def outcome_handler (r : Except Fault (NutanixGrpcBidiStreamHandler W × List (Event W))) :
    Option (NutanixGrpcBidiStreamHandler W) :=
  match r with
  | Except.ok x => some x.1
  | Except.error _ => none

/-! ## Runs of the handler against its environment -/

/-- What the environment can do to a handler: the application calls
`WriteToStream`, a timer or poller calls `ProcessNextWrite`, the stream
lifecycle sets one of the closing flags, the transport reports the outcome of
the outstanding write through `WriteDoneEvent`. -/
inductive Op (W : Type) where
  | write (p : W) (now : Int)
  | process (now : Int)
  | set_writes_done
  | set_stream_cancelled
  | set_stream_finished
  | write_done (ok : Bool) (now_retry now_next : Int)
  deriving DecidableEq

/-- A handler together with the bookkeeping of its environment: the number of
writes handed to `stream_->Write` whose `WriteDoneEvent` has not fired yet, the
payloads `WriteToStream` did not reject, and all events so far. -/
structure Sys (W : Type) where
  handler : NutanixGrpcBidiStreamHandler W
  outstanding : Nat
  accepted : List W
  trace : List (Event W)
  deriving DecidableEq

/-- The system right after the constructor ran. -/
def Sys.init (W : Type) (flag_max_attempts flag_initial_delay_ms : Int) : Sys W :=
  { handler := NutanixGrpcBidiStreamHandler.ctor W flag_max_attempts flag_initial_delay_ms
    outstanding := 0
    accepted := []
    trace := [] }

/-- Modelled from the spec: the code that sets `writes_done_`,
`stream_cancelled_` and `stream_finished_` is elided from the header; the spec
has each closing flag set by the surrounding stream lifecycle as a one-way
transition that touches nothing else of the scheduler state. -/
def set_closing_flag (s : NutanixGrpcBidiStreamHandler W) (op : Op W) :
    NutanixGrpcBidiStreamHandler W :=
  match op with
  | Op.set_writes_done => { s with writes_done_ := true }
  | Op.set_stream_cancelled => { s with stream_cancelled_ := true }
  | Op.set_stream_finished => { s with stream_finished_ := true }
  | _ => s

/-- One step. `WriteDoneEvent` is delivered only for an outstanding transport
write; a fault inside it ends the run. -/
def Sys.step (cb_takes_handle : Bool) (s : Sys W) (op : Op W) : Option (Sys W) :=
  match op with
  | Op.write p now =>
    let r := WriteToStream s.handler p now
    some { handler := r.1
           outstanding := s.outstanding + (submitted r.2.2).length
           accepted := if r.2.1 = WriteStatus.kWriteEndClosed then s.accepted
                       else s.accepted ++ [p]
           trace := s.trace ++ r.2.2 }
  | Op.process now =>
    let r := ProcessNextWrite s.handler now
    some { s with
           handler := r.1
           outstanding := s.outstanding + (submitted r.2).length
           trace := s.trace ++ r.2 }
  | Op.write_done ok now_retry now_next =>
    if s.outstanding = 0 then none
    else
      match WriteDoneEvent cb_takes_handle s.handler ok now_retry now_next with
      | Except.error _ => none
      | Except.ok r =>
        some { s with
               handler := r.1
               outstanding := s.outstanding - 1 + (submitted r.2).length
               trace := s.trace ++ r.2 }
  | flag => some { s with handler := set_closing_flag s.handler flag }

/-- A run: the steps of a list of operations, one after the other. -/
def Sys.run (cb_takes_handle : Bool) (s : Sys W) : List (Op W) → Option (Sys W)
  | [] => some s
  | op :: ops =>
    match Sys.step cb_takes_handle s op with
    | none => none
    | some s1 => Sys.run cb_takes_handle s1 ops

/-- The payload in flight: the content of `write_val_` while
`write_in_progress_` is set. -/
def in_flight (h : NutanixGrpcBidiStreamHandler W) : List W :=
  if h.write_in_progress_ then h.write_val_.toList else []

/-- The payloads of the entries of `write_queue_`, front first. -/
def queued (h : NutanixGrpcBidiStreamHandler W) : List W :=
  h.write_queue_.map QueuedWrite.write_val

/-- The payloads handed to `stream_write_done_cb_` by a list of events. -/
def delivered (es : List (Event W)) : List W :=
  (callbacks es).map Prod.snd

/-- The payloads passed to `WriteToStream` by a list of operations. -/
def written : List (Op W) → List W
  | [] => []
  | Op.write p _ :: ops => p :: written ops
  | _ :: ops => written ops

/-- Lock ownership as explicit state: `held` is the number of scoped lockers on
`spin_rw_lock_` that are alive. The result lists the invocations of
`stream_write_done_cb_` that happen while at least one is alive. -/
def callbacks_under_lock : Nat → List (Event W) → List (WriteStatus × W)
  | _, [] => []
  | held, Event.lock_acquired :: es => callbacks_under_lock (held + 1) es
  | held, Event.lock_released :: es => callbacks_under_lock (held - 1) es
  | held, Event.stream_write_done_cb st p :: es =>
    if held = 0 then callbacks_under_lock held es
    else (st, p) :: callbacks_under_lock held es
  | held, Event.stream_Write _ :: es => callbacks_under_lock held es

/-- The value of the local `delay_ms` of `ScheduleWriteRetry` for a retry
count: `write_retry_initial_delay_ms_ * (1 << retry_count)` in `int`. -/
def delay_ms (h : NutanixGrpcBidiStreamHandler W) (retry_count : Int) : Int :=
  wrap32 (h.write_retry_initial_delay_ms_ * shl32 1 retry_count)

/-- Whether, reading a list of submitted payloads from the start, payload p is
met before payload q is: the first submission of p precedes every submission
of q. -/
def first_before [DecidableEq W] (p q : W) : List W → Bool
  | [] => false
  | x :: xs => if x = p then true else if x = q then false else first_before p q xs

/-! ## Concrete runs used as instances -/

/-- Two writes, the first of which fails once and is queued for a retry behind
the second. -/
def run_two_writes : List (Op Nat) :=
  [Op.write 7 0, Op.write 8 1, Op.write_done false 2 2]

/-- The state `run_two_writes` ends in under the default flags. -/
def state_two_writes : Sys Nat :=
  { handler :=
      { write_queue_ := [{ write_val := 7, retry_count := 1, next_retry := 202 }]
        max_write_retry_attempts_ := 3
        write_retry_initial_delay_ms_ := 100
        write_val_ := some 8
        writes_done_ := false
        write_in_progress_ := true
        stream_finished_ := false
        stream_cancelled_ := false }
    outstanding := 1
    accepted := [7, 8]
    trace := [Event.lock_acquired, Event.stream_Write 7, Event.lock_released,
              Event.lock_acquired, Event.lock_released,
              Event.lock_acquired, Event.lock_acquired, Event.stream_Write 8,
              Event.lock_released, Event.lock_released] }

/-- A handler with write 7 in flight and writes 8 and 9 queued behind it. -/
def handler_busy : NutanixGrpcBidiStreamHandler Nat :=
  { write_queue_ := [{ write_val := 8, retry_count := 0, next_retry := 1 },
                     { write_val := 9, retry_count := 0, next_retry := 2 }]
    max_write_retry_attempts_ := 3
    write_retry_initial_delay_ms_ := 100
    write_val_ := some 7
    writes_done_ := false
    write_in_progress_ := true
    stream_finished_ := false
    stream_cancelled_ := false }

/-- The handler `handler_busy` after the stream was cancelled. -/
def handler_cancelled : NutanixGrpcBidiStreamHandler Nat :=
  { handler_busy with stream_cancelled_ := true }

/-- A single write whose transport write fails five times in a row; after each
failure the dispatch loop runs once the backoff deadline has passed. Nothing
else is ever queued. -/
def run_always_failing : List (Op Nat) :=
  [Op.write 7 0, Op.write_done false 1 1, Op.process 101, Op.write_done false 102 102,
   Op.process 202, Op.write_done false 203 203, Op.process 303, Op.write_done false 304 304,
   Op.process 404, Op.write_done false 405 405]

/-- The handler after `WriteToStream(7)` at time 0 and `WriteToStream(8)` at
time 1 under the default flags: 7 is in flight on its first attempt, 8 waits. -/
def handler_first_attempt : NutanixGrpcBidiStreamHandler Nat :=
  { write_queue_ := [{ write_val := 8, retry_count := 0, next_retry := 1 }]
    max_write_retry_attempts_ := 3
    write_retry_initial_delay_ms_ := 100
    write_val_ := some 7
    writes_done_ := false
    write_in_progress_ := true
    stream_finished_ := false
    stream_cancelled_ := false }

/-- The run behind the ordering of first-time writes. Write 1 fails once and
its retry, due at time 101, waits at the head of the queue. Write 2 is
dispatched at once, write 3 is queued behind the retry, write 2 completes, and
write 4 arrives while the stream is idle. Afterwards everything completes:
writes 2, 3 and 4 never fail. -/
def run_fifo_bypass : List (Op Nat) :=
  [Op.write 1 0, Op.write_done false 1 1, Op.write 2 2, Op.write 3 3, Op.write_done true 4 4,
   Op.write 4 5, Op.write_done true 6 6, Op.process 101, Op.write_done true 102 102,
   Op.write_done true 103 103]

/-- A handler with write 7 in flight and writes 1, 2, 3 (standing for A, B, C)
queued behind it in that order. -/
def handler_three_queued : NutanixGrpcBidiStreamHandler Nat :=
  { write_queue_ := [{ write_val := 1, retry_count := 0, next_retry := 10 },
                     { write_val := 2, retry_count := 0, next_retry := 11 },
                     { write_val := 3, retry_count := 0, next_retry := 12 }]
    max_write_retry_attempts_ := 3
    write_retry_initial_delay_ms_ := 100
    write_val_ := some 7
    writes_done_ := false
    write_in_progress_ := true
    stream_finished_ := false
    stream_cancelled_ := false }

/-- A run after which write 7 is in flight for the second time and the front of
the queue is the retry of write 8 with retry count 2. -/
def run_retry_exhausted : List (Op Nat) :=
  [Op.write 7 0, Op.write 8 1, Op.write_done false 2 2, Op.write_done false 3 3,
   Op.process 202]

/-- The handler `run_retry_exhausted` ends in under the default flags. -/
def handler_retry_exhausted : NutanixGrpcBidiStreamHandler Nat :=
  { write_queue_ := [{ write_val := 8, retry_count := 2, next_retry := 403 }]
    max_write_retry_attempts_ := 3
    write_retry_initial_delay_ms_ := 100
    write_val_ := some 7
    writes_done_ := false
    write_in_progress_ := true
    stream_finished_ := false
    stream_cancelled_ := false }

/-- An idle handler whose queue head, the retry of write 1, is due at time 101
while the entry behind it, write 3, has been due since time 3. -/
def handler_head_waiting : NutanixGrpcBidiStreamHandler Nat :=
  { write_queue_ := [{ write_val := 1, retry_count := 0, next_retry := 101 },
                     { write_val := 3, retry_count := 0, next_retry := 3 }]
    max_write_retry_attempts_ := 3
    write_retry_initial_delay_ms_ := 100
    write_val_ := none
    writes_done_ := false
    write_in_progress_ := false
    stream_finished_ := false
    stream_cancelled_ := false }

/-- The start of a run with two payloads queued behind a waiting retry: write 1
fails and its retry is queued, due at time 101; write 2 is dispatched at once. -/
def run_fifo_start : List (Op Nat) :=
  [Op.write 1 0, Op.write_done false 1 1, Op.write 2 2]

/-- The rest of that run, after writes 3 and 5 were queued: write 2 completes
while the retry is not due, the dispatch loop runs at time 101, and the writes
complete one after the other. -/
def run_fifo_rest : List (Op Nat) :=
  [Op.write_done true 4 4, Op.process 101, Op.write_done true 102 102,
   Op.write_done true 103 103]

/-- The state after `run_fifo_start` under the default flags: the retry of write 1
waits in the queue, due at time 101, and write 2 is in flight. -/
def state_fifo_a : Sys Nat :=
  { handler :=
      { write_queue_ := [{ write_val := 1, retry_count := 0, next_retry := 101 }]
        max_write_retry_attempts_ := 3
        write_retry_initial_delay_ms_ := 100
        write_val_ := some 2
        writes_done_ := false
        write_in_progress_ := true
        stream_finished_ := false
        stream_cancelled_ := false }
    outstanding := 1
    accepted := [1, 2]
    trace := [Event.lock_acquired, Event.stream_Write 1, Event.lock_released,
              Event.lock_acquired, Event.lock_acquired, Event.lock_released,
              Event.lock_released, Event.lock_acquired, Event.stream_Write 2,
              Event.lock_released] }

/-- The state after write 3 was then queued, at time 3, behind the retry of
write 1. -/
def state_fifo_b : Sys Nat :=
  { handler :=
      { write_queue_ := [{ write_val := 1, retry_count := 0, next_retry := 101 },
                     { write_val := 3, retry_count := 0, next_retry := 3 }]
        max_write_retry_attempts_ := 3
        write_retry_initial_delay_ms_ := 100
        write_val_ := some 2
        writes_done_ := false
        write_in_progress_ := true
        stream_finished_ := false
        stream_cancelled_ := false }
    outstanding := 1
    accepted := [1, 2, 3]
    trace := [Event.lock_acquired, Event.stream_Write 1, Event.lock_released,
              Event.lock_acquired, Event.lock_acquired, Event.lock_released,
              Event.lock_released, Event.lock_acquired, Event.stream_Write 2,
              Event.lock_released, Event.lock_acquired, Event.lock_released] }

/-- The state after write 5 was queued as well, at time 5, and `run_fifo_rest` was
run: the payloads were submitted in the order 1, 2, 1, 3, 5. -/
def state_fifo_end : Sys Nat :=
  { handler :=
      { write_queue_ := []
        max_write_retry_attempts_ := 3
        write_retry_initial_delay_ms_ := 100
        write_val_ := some 5
        writes_done_ := false
        write_in_progress_ := true
        stream_finished_ := false
        stream_cancelled_ := false }
    outstanding := 1
    accepted := [1, 2, 3, 5]
    trace := [Event.lock_acquired, Event.stream_Write 1, Event.lock_released,
              Event.lock_acquired, Event.lock_acquired, Event.lock_released,
              Event.lock_released, Event.lock_acquired, Event.stream_Write 2,
              Event.lock_released, Event.lock_acquired, Event.lock_released,
              Event.lock_acquired, Event.lock_released, Event.lock_acquired,
              Event.lock_acquired, Event.lock_released, Event.stream_write_done_cb
              WriteStatus.kNoError 2, Event.lock_released, Event.lock_acquired,
              Event.stream_Write 1, Event.lock_released, Event.lock_acquired,
              Event.lock_acquired, Event.stream_Write 3, Event.lock_released,
              Event.stream_write_done_cb WriteStatus.kNoError 1, Event.lock_released,
              Event.lock_acquired, Event.lock_acquired, Event.stream_Write 5,
              Event.lock_released, Event.stream_write_done_cb WriteStatus.kNoError 3,
              Event.lock_released] }

/-! ## Basic facts about the operations -/

theorem submitted_append (xs ys : List (Event W)) :
    submitted (xs ++ ys) = submitted xs ++ submitted ys := by
  induction xs with
  | nil => rfl
  | cons e es ih => cases e <;> simp [submitted, ih]

theorem callbacks_append (xs ys : List (Event W)) :
    callbacks (xs ++ ys) = callbacks xs ++ callbacks ys := by
  induction xs with
  | nil => rfl
  | cons e es ih => cases e <;> simp [callbacks, ih]

/-- The two outcomes of `ProcessNextWrite`: nothing happens, or the head of
the queue is dispatched. -/
theorem ProcessNextWrite_cases (s : NutanixGrpcBidiStreamHandler W) (now : Int) :
    ProcessNextWrite s now = (s, [Event.lock_acquired, Event.lock_released]) ∨
    ∃ next_write rest,
      s.write_queue_ = next_write :: rest ∧ s.write_in_progress_ = false ∧
      s.writes_done_ = false ∧ s.stream_cancelled_ = false ∧ s.stream_finished_ = false ∧
      next_write.next_retry ≤ now ∧
      ProcessNextWrite s now =
        ({ s with
            write_in_progress_ := true
            write_val_ := some next_write.write_val
            write_queue_ := rest },
         [Event.lock_acquired, Event.stream_Write next_write.write_val, Event.lock_released]) := by
  unfold ProcessNextWrite
  split
  · exact Or.inl rfl
  · rename_i hgate
    simp only [Bool.or_eq_true, not_or, Bool.not_eq_true] at hgate
    obtain ⟨⟨⟨⟨hwip, _⟩, hwd⟩, hsc⟩, hsf⟩ := hgate
    split
    · exact Or.inl rfl
    · rename_i next_write rest hq
      split
      · exact Or.inl rfl
      · rename_i hnow
        exact Or.inr ⟨next_write, rest, hq, hwip, hwd, hsc, hsf, not_lt.mp hnow, rfl⟩

/-- Under a closing flag `ProcessNextWrite` does nothing. -/
theorem ProcessNextWrite_closing (s : NutanixGrpcBidiStreamHandler W) (now : Int)
    (h : s.writes_done_ = true ∨ s.stream_cancelled_ = true ∨ s.stream_finished_ = true) :
    ProcessNextWrite s now = (s, [Event.lock_acquired, Event.lock_released]) := by
  rcases ProcessNextWrite_cases s now with h0 | ⟨_, _, _, _, hwd, hsc, hsf, _, _⟩
  · exact h0
  · rcases h with h | h | h <;> simp_all

/-- The dispatch loop never changes the closing flags or the retry
parameters. -/
theorem ProcessNextWrite_frame (s : NutanixGrpcBidiStreamHandler W) (now : Int) :
    (ProcessNextWrite s now).1.writes_done_ = s.writes_done_ ∧
    (ProcessNextWrite s now).1.stream_cancelled_ = s.stream_cancelled_ ∧
    (ProcessNextWrite s now).1.stream_finished_ = s.stream_finished_ ∧
    (ProcessNextWrite s now).1.max_write_retry_attempts_ = s.max_write_retry_attempts_ ∧
    (ProcessNextWrite s now).1.write_retry_initial_delay_ms_ =
      s.write_retry_initial_delay_ms_ := by
  rcases ProcessNextWrite_cases s now with h0 | ⟨_, _, _, _, _, _, _, _, h1⟩
  · simp [h0]
  · simp [h1]

/-- When no write is in progress, `ProcessNextWrite` submits exactly as many
writes (none or one) as the in-progress flag it leaves says. -/
theorem ProcessNextWrite_count (s : NutanixGrpcBidiStreamHandler W) (now : Int)
    (h : s.write_in_progress_ = false) :
    (submitted (ProcessNextWrite s now).2).length =
      if (ProcessNextWrite s now).1.write_in_progress_ then 1 else 0 := by
  rcases ProcessNextWrite_cases s now with h0 | ⟨_, _, _, _, _, _, _, _, h1⟩
  · simp [h0, h, submitted]
  · simp [h1, submitted]

/-- When a write is in progress, `ProcessNextWrite` does nothing. -/
theorem ProcessNextWrite_busy (s : NutanixGrpcBidiStreamHandler W) (now : Int)
    (h : s.write_in_progress_ = true) :
    ProcessNextWrite s now = (s, [Event.lock_acquired, Event.lock_released]) := by
  rcases ProcessNextWrite_cases s now with h0 | ⟨_, _, _, hwip, _⟩
  · exact h0
  · simp_all

/-- The retry scheduler neither submits a write nor touches the in-progress
flag. -/
theorem ScheduleWriteRetry_frame (cb : Bool) (s : NutanixGrpcBidiStreamHandler W)
    (p : W) (k now : Int) :
    submitted (ScheduleWriteRetry cb s p k now).2.2 = [] ∧
    (ScheduleWriteRetry cb s p k now).1.write_in_progress_ = s.write_in_progress_ ∧
    (ScheduleWriteRetry cb s p k now).1.writes_done_ = s.writes_done_ ∧
    (ScheduleWriteRetry cb s p k now).1.stream_cancelled_ = s.stream_cancelled_ ∧
    (ScheduleWriteRetry cb s p k now).1.stream_finished_ = s.stream_finished_ := by
  unfold ScheduleWriteRetry
  split <;> simp [submitted]

/-- What `WriteToStream` submits matches the change of the in-progress flag. -/
theorem WriteToStream_count (s : NutanixGrpcBidiStreamHandler W) (p : W) (now : Int) :
    (if s.write_in_progress_ then 1 else 0) + (submitted (WriteToStream s p now).2.2).length =
      if (WriteToStream s p now).1.write_in_progress_ then 1 else 0 := by
  cases h1 : s.writes_done_ <;> cases h2 : s.stream_cancelled_ <;>
    cases h3 : s.stream_finished_ <;> cases h4 : s.write_in_progress_ <;>
    simp [WriteToStream, h1, h2, h3, h4, submitted]

/-- A `WriteDoneEvent` that returns was called with a write in progress, and
what it submits (none or one write) matches the in-progress flag it leaves. -/
theorem WriteDoneEvent_count (cb : Bool) (s : NutanixGrpcBidiStreamHandler W)
    (ok : Bool) (now_retry now_next : Int)
    (r : NutanixGrpcBidiStreamHandler W × List (Event W))
    (h : WriteDoneEvent cb s ok now_retry now_next = Except.ok r) :
    s.write_in_progress_ = true ∧
    (submitted r.2).length = if r.1.write_in_progress_ then 1 else 0 := by
  have key : ∀ (s1 : NutanixGrpcBidiStreamHandler W), s1.write_in_progress_ = false →
      ∀ (pre post : List (Event W)), submitted pre = [] → submitted post = [] →
      (submitted (pre ++ (ProcessNextWrite s1 now_next).2 ++ post)).length =
        if (ProcessNextWrite s1 now_next).1.write_in_progress_ then 1 else 0 := by
    intro s1 hs1 pre post hpre hpost
    rw [submitted_append, submitted_append, hpre, hpost, List.nil_append, List.append_nil]
    exact ProcessNextWrite_count s1 now_next hs1
  unfold WriteDoneEvent at h
  split at h
  · cases h
  · rename_i cur hcur
    split at h
    · cases h
    · rename_i hwip
      simp only [Bool.not_eq_true, Bool.not_eq_false] at hwip
      refine ⟨by simpa using hwip, ?_⟩
      split at h
      · injection h with h
        subst h
        have hf := ScheduleWriteRetry_frame cb { s with write_in_progress_ := false } cur
          (failure_retry_count { s with write_in_progress_ := false }) now_retry
        refine key _ ?_ _ _ ?_ ?_
        · exact hf.2.1
        · rw [submitted_append, hf.1]; rfl
        · rfl
      · injection h with h
        subst h
        refine key _ ?_ _ _ ?_ ?_ <;> rfl

/-- One step keeps the count of outstanding transport writes equal to the
in-progress flag. -/
theorem step_single_flight (cb : Bool) (s s1 : Sys W) (op : Op W)
    (hinv : s.outstanding = if s.handler.write_in_progress_ then 1 else 0)
    (h : Sys.step cb s op = some s1) :
    s1.outstanding = if s1.handler.write_in_progress_ then 1 else 0 := by
  cases op with
  | write p now =>
    simp only [Sys.step, Option.some.injEq] at h
    subst h
    have := WriteToStream_count s.handler p now
    simp only [hinv]
    exact this
  | process now =>
    simp only [Sys.step, Option.some.injEq] at h
    subst h
    cases hw : s.handler.write_in_progress_ with
    | true => simp [ProcessNextWrite_busy _ _ hw, submitted, hinv, hw]
    | false =>
      have := ProcessNextWrite_count s.handler now hw
      simp only [hw] at hinv
      simp [this, hinv]
  | set_writes_done =>
    simp only [Sys.step, Option.some.injEq] at h
    subst h
    simpa [set_closing_flag] using hinv
  | set_stream_cancelled =>
    simp only [Sys.step, Option.some.injEq] at h
    subst h
    simpa [set_closing_flag] using hinv
  | set_stream_finished =>
    simp only [Sys.step, Option.some.injEq] at h
    subst h
    simpa [set_closing_flag] using hinv
  | write_done ok now_retry now_next =>
    simp only [Sys.step] at h
    split at h
    · cases h
    · split at h
      · cases h
      · rename_i r hr
        simp only [Option.some.injEq] at h
        subst h
        obtain ⟨hw, hc⟩ := WriteDoneEvent_count cb s.handler ok now_retry now_next r hr
        simp only [hw, if_true] at hinv
        simp [hinv, hc]

/-- A run keeps the count of outstanding transport writes equal to the
in-progress flag. -/
theorem run_single_flight (cb : Bool) (ops : List (Op W)) (s s1 : Sys W)
    (hinv : s.outstanding = if s.handler.write_in_progress_ then 1 else 0)
    (h : Sys.run cb s ops = some s1) :
    s1.outstanding = if s1.handler.write_in_progress_ then 1 else 0 := by
  induction ops generalizing s with
  | nil =>
    simp only [Sys.run, Option.some.injEq] at h
    subst h
    exact hinv
  | cons op ops ih =>
    simp only [Sys.run] at h
    split at h
    · cases h
    · rename_i s2 hs2
      exact ih s2 (step_single_flight cb s s2 op hinv hs2) h

/-! ## Machine arithmetic -/

/-- Inside the `int` range `wrap32` is the identity. -/
theorem wrap32_of_range (x : Int) (h1 : -2147483648 ≤ x) (h2 : x < 2147483648) :
    wrap32 x = x := by
  unfold wrap32
  omega

/-- For a shift count from 0 to 30, `1 << k` is the power of two. -/
theorem shl32_one (k : Int) (h0 : 0 ≤ k) (h1 : k ≤ 30) : shl32 1 k = 2 ^ k.toNat := by
  interval_cases k <;> rfl

/-! ## Conservation of payloads -/

theorem delivered_append (xs ys : List (Event W)) :
    delivered (xs ++ ys) = delivered xs ++ delivered ys := by
  simp [delivered, callbacks_append]

/-- The dispatch loop never invokes the callback. -/
theorem ProcessNextWrite_callbacks (s : NutanixGrpcBidiStreamHandler W) (now : Int) :
    callbacks (ProcessNextWrite s now).2 = [] := by
  rcases ProcessNextWrite_cases s now with h0 | ⟨_, _, _, _, _, _, _, _, h1⟩
  · rw [h0]; rfl
  · rw [h1]; rfl

/-- Started with no write in progress, `ProcessNextWrite` only moves the head
of the queue into the in-flight slot, or does nothing. -/
theorem ProcessNextWrite_conserve (s : NutanixGrpcBidiStreamHandler W) (now : Int)
    (h : s.write_in_progress_ = false) :
    in_flight (ProcessNextWrite s now).1 ++ queued (ProcessNextWrite s now).1 = queued s ∧
    ((ProcessNextWrite s now).1.write_in_progress_ = false →
      (ProcessNextWrite s now).1.write_val_ = s.write_val_) := by
  rcases ProcessNextWrite_cases s now with h0 | ⟨nw, rest, hq, _, _, _, _, _, h1⟩
  · simp [h0, in_flight, h]
  · simp [h1, in_flight, queued, hq]

/-- The retry scheduler puts its payload either into the queue or into a
callback, and leaves the caller's handle empty when the callback takes it. -/
theorem ScheduleWriteRetry_conserve [DecidableEq W] (cb : Bool)
    (s : NutanixGrpcBidiStreamHandler W) (p : W) (k now : Int) (q : W) :
    (queued (ScheduleWriteRetry cb s p k now).1).count q +
        (delivered (ScheduleWriteRetry cb s p k now).2.2).count q =
      (queued s).count q + [p].count q ∧
    (cb = true → (ScheduleWriteRetry cb s p k now).2.1 = none) := by
  unfold ScheduleWriteRetry
  split
  · refine ⟨by simp [delivered, callbacks], ?_⟩
    intro hcb
    simp [hcb]
  · refine ⟨by simp [delivered, callbacks, queued, QueuedWrite.ctor], ?_⟩
    intro _
    rfl

/-- The dispatch loop delivers nothing to the callback. -/
theorem ProcessNextWrite_delivered (s : NutanixGrpcBidiStreamHandler W) (now : Int) :
    delivered (ProcessNextWrite s now).2 = [] := by
  simp [delivered, ProcessNextWrite_callbacks]

/-- A `WriteDoneEvent` that returns moves the payload in flight into the queue
or into a callback and may put the queue head in flight; nothing else moves. -/
theorem WriteDoneEvent_conserve [DecidableEq W] (cb : Bool)
    (s : NutanixGrpcBidiStreamHandler W) (ok : Bool) (now_retry now_next : Int)
    (r : NutanixGrpcBidiStreamHandler W × List (Event W))
    (h : WriteDoneEvent cb s ok now_retry now_next = Except.ok r) :
    (∀ q, (in_flight r.1).count q + (queued r.1).count q + (delivered r.2).count q =
      (in_flight s).count q + (queued s).count q) ∧
    (cb = true → r.1.write_in_progress_ = false → r.1.write_val_ = none) := by
  unfold WriteDoneEvent at h
  split at h
  · cases h
  · rename_i cur hcur
    split at h
    · cases h
    · rename_i hwip
      have hwip1 : s.write_in_progress_ = true := by simpa using hwip
      have hfl : in_flight s = [cur] := by simp [in_flight, hwip1, hcur]
      split at h
      · injection h with h
        subst h
        have hf := ScheduleWriteRetry_frame cb { s with write_in_progress_ := false } cur
          (failure_retry_count { s with write_in_progress_ := false }) now_retry
        have hp := ProcessNextWrite_conserve
          { (ScheduleWriteRetry cb { s with write_in_progress_ := false } cur
              (failure_retry_count { s with write_in_progress_ := false }) now_retry).1 with
            write_val_ := (ScheduleWriteRetry cb { s with write_in_progress_ := false } cur
              (failure_retry_count { s with write_in_progress_ := false }) now_retry).2.1 }
          now_next hf.2.1
        constructor
        · intro q
          have hc := (ScheduleWriteRetry_conserve cb { s with write_in_progress_ := false } cur
            (failure_retry_count { s with write_in_progress_ := false }) now_retry q).1
          have h1 := congrArg (List.count q) hp.1
          simp only [List.count_append] at h1
          simp only [delivered_append, List.count_append, hfl, ProcessNextWrite_delivered]
          have e1 : delivered [(Event.lock_acquired : Event W)] = [] := rfl
          have e2 : delivered [(Event.lock_released : Event W)] = [] := rfl
          simp only [e1, e2, List.count_nil, Nat.add_zero, Nat.zero_add]
          simp only [queued] at h1 hc ⊢
          omega
        · intro hcbt hw
          rw [hp.2 hw]
          exact (ScheduleWriteRetry_conserve cb { s with write_in_progress_ := false } cur
            (failure_retry_count { s with write_in_progress_ := false }) now_retry cur).2 hcbt
      · injection h with h
        subst h
        have hp := ProcessNextWrite_conserve
          { s with write_val_ := none, write_in_progress_ := false } now_next rfl
        constructor
        · intro q
          have h1 := congrArg (List.count q) hp.1
          simp only [List.count_append] at h1
          simp only [delivered_append, List.count_append, hfl, ProcessNextWrite_delivered]
          have e1 : delivered [(Event.lock_acquired : Event W)] = [] := rfl
          have e2 : delivered [Event.stream_write_done_cb WriteStatus.kNoError cur,
            (Event.lock_released : Event W)] = [cur] := rfl
          simp only [e1, e2, List.count_nil, Nat.add_zero, Nat.zero_add]
          simp only [queued] at h1 ⊢
          omega
        · intro _ hw
          rw [hp.2 hw]

/-- The submission path adds its payload to the in-flight slot or to the queue
unless it rejects it, and moves nothing else. -/
theorem WriteToStream_conserve [DecidableEq W] (s : NutanixGrpcBidiStreamHandler W)
    (p : W) (now : Int) :
    (∀ q, (in_flight (WriteToStream s p now).1).count q +
        (queued (WriteToStream s p now).1).count q +
        (delivered (WriteToStream s p now).2.2).count q =
      (in_flight s).count q + (queued s).count q +
        (if (WriteToStream s p now).2.1 = WriteStatus.kWriteEndClosed then 0
         else [p].count q)) ∧
    ((WriteToStream s p now).1.write_in_progress_ = false →
      s.write_in_progress_ = false ∧ (WriteToStream s p now).1.write_val_ = s.write_val_) := by
  have e0 : delivered [(Event.lock_acquired : Event W), Event.lock_released] = [] := rfl
  have e1 : delivered [(Event.lock_acquired : Event W), Event.stream_Write p,
    Event.lock_released] = [] := rfl
  cases h1 : s.writes_done_ <;> cases h2 : s.stream_cancelled_ <;>
    cases h3 : s.stream_finished_ <;> cases h4 : s.write_in_progress_ <;>
    simp [WriteToStream, h1, h2, h3, h4, in_flight, queued, e0, e1, QueuedWrite.ctor] <;>
    intro q <;> omega

/-- One step keeps the conservation invariant: every payload is as often in
flight, queued or delivered as it was accepted; and when the callback takes the
handle, an idle handler has an empty in-flight slot. -/
theorem step_conserve [DecidableEq W] (cb : Bool) (s s1 : Sys W) (op : Op W)
    (hinv : ∀ q, (in_flight s.handler).count q + (queued s.handler).count q +
      (delivered s.trace).count q = s.accepted.count q)
    (hslot : cb = true → s.handler.write_in_progress_ = false → s.handler.write_val_ = none)
    (h : Sys.step cb s op = some s1) :
    (∀ q, (in_flight s1.handler).count q + (queued s1.handler).count q +
      (delivered s1.trace).count q = s1.accepted.count q) ∧
    (cb = true → s1.handler.write_in_progress_ = false → s1.handler.write_val_ = none) := by
  cases op with
  | write p now =>
    simp only [Sys.step, Option.some.injEq] at h
    subst h
    constructor
    · intro q
      have hw := (WriteToStream_conserve s.handler p now).1 q
      have hi := hinv q
      simp only [delivered_append, List.count_append]
      by_cases hc : (WriteToStream s.handler p now).2.1 = WriteStatus.kWriteEndClosed
      · simp only [hc, if_true] at hw ⊢
        omega
      · simp only [hc, if_false, List.count_append] at hw ⊢
        omega
    · intro hcb hw
      obtain ⟨h1, h2⟩ := (WriteToStream_conserve s.handler p now).2 hw
      show (WriteToStream s.handler p now).1.write_val_ = none
      rw [h2]
      exact hslot hcb h1
  | process now =>
    simp only [Sys.step, Option.some.injEq] at h
    subst h
    cases hw : s.handler.write_in_progress_ with
    | true =>
      refine ⟨fun q => ?_, fun hcb hw1 => ?_⟩
      · have hi := hinv q
        simp only [delivered_append, List.count_append, ProcessNextWrite_delivered,
          List.count_nil, Nat.add_zero]
        rw [ProcessNextWrite_busy _ _ hw]
        exact hi
      · have hw2 : (ProcessNextWrite s.handler now).1.write_in_progress_ = false := hw1
        rw [ProcessNextWrite_busy _ _ hw] at hw2
        rw [hw] at hw2
        cases hw2
    | false =>
      have hp := ProcessNextWrite_conserve s.handler now hw
      refine ⟨fun q => ?_, fun hcb hw1 => ?_⟩
      · have h1 := congrArg (List.count q) hp.1
        have hi := hinv q
        have e : in_flight s.handler = [] := by simp [in_flight, hw]
        simp only [List.count_append] at h1
        simp only [e, List.count_nil, Nat.zero_add] at hi
        simp only [delivered_append, List.count_append, ProcessNextWrite_delivered,
          List.count_nil, Nat.add_zero]
        omega
      · show (ProcessNextWrite s.handler now).1.write_val_ = none
        rw [hp.2 hw1]
        exact hslot hcb hw
  | set_writes_done =>
    simp only [Sys.step, Option.some.injEq] at h
    subst h
    exact ⟨hinv, hslot⟩
  | set_stream_cancelled =>
    simp only [Sys.step, Option.some.injEq] at h
    subst h
    exact ⟨hinv, hslot⟩
  | set_stream_finished =>
    simp only [Sys.step, Option.some.injEq] at h
    subst h
    exact ⟨hinv, hslot⟩
  | write_done ok now_retry now_next =>
    simp only [Sys.step] at h
    split at h
    · cases h
    · split at h
      · cases h
      · rename_i r hr
        simp only [Option.some.injEq] at h
        subst h
        have hc := WriteDoneEvent_conserve cb s.handler ok now_retry now_next r hr
        refine ⟨fun q => ?_, hc.2⟩
        have hq := hc.1 q
        have hi := hinv q
        simp only [delivered_append, List.count_append]
        omega

/-- A run keeps the conservation invariant. -/
theorem run_conserve [DecidableEq W] (cb : Bool) (ops : List (Op W)) (s s1 : Sys W)
    (hinv : ∀ q, (in_flight s.handler).count q + (queued s.handler).count q +
      (delivered s.trace).count q = s.accepted.count q)
    (hslot : cb = true → s.handler.write_in_progress_ = false → s.handler.write_val_ = none)
    (h : Sys.run cb s ops = some s1) :
    (∀ q, (in_flight s1.handler).count q + (queued s1.handler).count q +
      (delivered s1.trace).count q = s1.accepted.count q) ∧
    (cb = true → s1.handler.write_in_progress_ = false → s1.handler.write_val_ = none) := by
  induction ops generalizing s with
  | nil =>
    simp only [Sys.run, Option.some.injEq] at h
    subst h
    exact ⟨hinv, hslot⟩
  | cons op ops ih =>
    simp only [Sys.run] at h
    split at h
    · cases h
    · rename_i s2 hs2
      obtain ⟨h1, h2⟩ := step_conserve cb s s2 op hinv hslot hs2
      exact ih s2 h1 h2 h

/-- One step appends to the accepted payloads at most the payload it wrote. -/
theorem step_accepted (cb : Bool) (s s1 : Sys W) (op : Op W)
    (h : Sys.step cb s op = some s1) :
    ∃ l, l.Sublist (written [op]) ∧ s1.accepted = s.accepted ++ l := by
  cases op with
  | write p now =>
    simp only [Sys.step, Option.some.injEq] at h
    subst h
    by_cases hc : (WriteToStream s.handler p now).2.1 = WriteStatus.kWriteEndClosed
    · exact ⟨[], List.nil_sublist _, by simp [hc]⟩
    · exact ⟨[p], List.Sublist.refl _, by simp [hc]⟩
  | process now =>
    simp only [Sys.step, Option.some.injEq] at h
    subst h
    exact ⟨[], List.nil_sublist _, by simp⟩
  | set_writes_done =>
    simp only [Sys.step, Option.some.injEq] at h
    subst h
    exact ⟨[], List.nil_sublist _, by simp⟩
  | set_stream_cancelled =>
    simp only [Sys.step, Option.some.injEq] at h
    subst h
    exact ⟨[], List.nil_sublist _, by simp⟩
  | set_stream_finished =>
    simp only [Sys.step, Option.some.injEq] at h
    subst h
    exact ⟨[], List.nil_sublist _, by simp⟩
  | write_done ok now_retry now_next =>
    simp only [Sys.step] at h
    split at h
    · cases h
    · split at h
      · cases h
      · simp only [Option.some.injEq] at h
        subst h
        exact ⟨[], List.nil_sublist _, by simp⟩

theorem written_cons (op : Op W) (ops : List (Op W)) :
    written (op :: ops) = written [op] ++ written ops := by
  cases op <;> simp [written]

/-- The accepted payloads of a run are, in order, some of the payloads it
wrote. -/
theorem run_accepted (cb : Bool) (ops : List (Op W)) (s s1 : Sys W)
    (h : Sys.run cb s ops = some s1) :
    ∃ l, l.Sublist (written ops) ∧ s1.accepted = s.accepted ++ l := by
  induction ops generalizing s with
  | nil =>
    simp only [Sys.run, Option.some.injEq] at h
    subst h
    exact ⟨[], List.nil_sublist _, by simp⟩
  | cons op ops ih =>
    simp only [Sys.run] at h
    split at h
    · cases h
    · rename_i s2 hs2
      obtain ⟨l1, hl1, he1⟩ := step_accepted cb s s2 op hs2
      obtain ⟨l2, hl2, he2⟩ := ih s2 h
      refine ⟨l1 ++ l2, ?_, by rw [he2, he1, List.append_assoc]⟩
      rw [written_cons]
      exact List.Sublist.append hl1 hl2

/-! ## Callbacks over a run -/

/-- A run continues from the state its first part ends in. -/
theorem run_append (cb : Bool) (a b : List (Op W)) (s s1 : Sys W)
    (h : Sys.run cb s a = some s1) : Sys.run cb s (a ++ b) = Sys.run cb s1 b := by
  induction a generalizing s with
  | nil =>
    simp only [Sys.run, Option.some.injEq] at h
    subst h
    rfl
  | cons op ops ih =>
    simp only [Sys.run] at h
    split at h
    · cases h
    · rename_i s2 hs2
      simp only [List.cons_append, Sys.run, hs2]
      exact ih s2 h

/-- A successful completion with p in the slot passes (`kNoError`, p) to the
callback, and nothing else. -/
theorem WriteDoneEvent_success_callbacks (cb : Bool) (s : NutanixGrpcBidiStreamHandler W)
    (p : W) (now_retry now_next : Int) (r : NutanixGrpcBidiStreamHandler W × List (Event W))
    (hval : s.write_val_ = some p)
    (h : WriteDoneEvent cb s true now_retry now_next = Except.ok r) :
    callbacks r.2 = [(WriteStatus.kNoError, p)] := by
  have hwip := (WriteDoneEvent_count cb s true now_retry now_next r h).1
  simp only [WriteDoneEvent, hval, hwip] at h
  injection h with h
  subst h
  simp [callbacks_append, ProcessNextWrite_callbacks, callbacks]

/-- Under a closing flag a `WriteDoneEvent` that returns leaves the flag set and
no write in progress, submits nothing, keeps every queued payload queued, and
passes to the callback at most the payload that was in flight. -/
theorem WriteDoneEvent_closing (cb : Bool) (s : NutanixGrpcBidiStreamHandler W) (ok : Bool)
    (now_retry now_next : Int) (r : NutanixGrpcBidiStreamHandler W × List (Event W))
    (hcl : s.writes_done_ = true ∨ s.stream_cancelled_ = true ∨ s.stream_finished_ = true)
    (h : WriteDoneEvent cb s ok now_retry now_next = Except.ok r) :
    (r.1.writes_done_ = true ∨ r.1.stream_cancelled_ = true ∨ r.1.stream_finished_ = true) ∧
    r.1.write_in_progress_ = false ∧
    submitted r.2 = [] ∧
    (∀ b, b ∈ queued s → b ∈ queued r.1) ∧
    (∀ b, b ∈ delivered r.2 → b ∈ in_flight s) := by
  unfold WriteDoneEvent at h
  split at h
  · cases h
  · rename_i cur hcur
    split at h
    · cases h
    · rename_i hwip
      have hwip1 : s.write_in_progress_ = true := by simpa using hwip
      have hfl : in_flight s = [cur] := by simp [in_flight, hwip1, hcur]
      split at h
      · injection h with h
        subst h
        have hf := ScheduleWriteRetry_frame cb { s with write_in_progress_ := false } cur
          (failure_retry_count { s with write_in_progress_ := false }) now_retry
        have hcl2 : (ScheduleWriteRetry cb { s with write_in_progress_ := false } cur
            (failure_retry_count { s with write_in_progress_ := false }) now_retry).1.writes_done_
              = true ∨
            (ScheduleWriteRetry cb { s with write_in_progress_ := false } cur
            (failure_retry_count { s with write_in_progress_ := false })
              now_retry).1.stream_cancelled_ = true ∨
            (ScheduleWriteRetry cb { s with write_in_progress_ := false } cur
            (failure_retry_count { s with write_in_progress_ := false })
              now_retry).1.stream_finished_ = true := by
          rw [hf.2.2.1, hf.2.2.2.1, hf.2.2.2.2]
          exact hcl
        simp only []
        rw [ProcessNextWrite_closing _ now_next (by exact hcl2)]
        refine ⟨hcl2, hf.2.1, ?_, ?_, ?_⟩
        · simp only [submitted_append, hf.1]
          rfl
        · intro b hb
          show b ∈ queued (ScheduleWriteRetry cb { s with write_in_progress_ := false } cur
            (failure_retry_count { s with write_in_progress_ := false }) now_retry).1
          unfold ScheduleWriteRetry
          split
          · exact hb
          · simp only [queued, List.map_append, List.mem_append]
            exact Or.inl hb
        · intro b hb
          rw [hfl]
          simp only [delivered_append] at hb
          have e1 : delivered [(Event.lock_acquired : Event W)] = [] := rfl
          have e2 : delivered [(Event.lock_acquired : Event W), Event.lock_released] = [] := rfl
          have e3 : delivered [(Event.lock_released : Event W)] = [] := rfl
          simp only [e1, e2, e3, List.nil_append, List.append_nil] at hb
          unfold ScheduleWriteRetry at hb
          split at hb
          · simpa [delivered, callbacks] using hb
          · simp [delivered, callbacks] at hb
      · injection h with h
        subst h
        simp only []
        rw [ProcessNextWrite_closing _ now_next (by exact hcl)]
        refine ⟨hcl, rfl, rfl, fun b hb => hb, ?_⟩
        intro b hb
        rw [hfl]
        simpa [delivered, callbacks] using hb

/-- After `ProcessNextWrite` a set in-progress flag comes with a filled slot,
if that was so before. -/
theorem ProcessNextWrite_slot (s : NutanixGrpcBidiStreamHandler W) (now : Int)
    (h : s.write_in_progress_ = true → s.write_val_.isSome = true) :
    (ProcessNextWrite s now).1.write_in_progress_ = true →
      (ProcessNextWrite s now).1.write_val_.isSome = true := by
  rcases ProcessNextWrite_cases s now with h0 | ⟨_, _, _, _, _, _, _, _, h1⟩
  · rw [h0]
    exact h
  · rw [h1]
    intro _
    rfl

/-- After a `WriteDoneEvent` that returns, a set in-progress flag comes with a
filled slot. -/
theorem WriteDoneEvent_slot (cb : Bool) (s : NutanixGrpcBidiStreamHandler W) (ok : Bool)
    (now_retry now_next : Int) (r : NutanixGrpcBidiStreamHandler W × List (Event W))
    (h : WriteDoneEvent cb s ok now_retry now_next = Except.ok r) :
    r.1.write_in_progress_ = true → r.1.write_val_.isSome = true := by
  unfold WriteDoneEvent at h
  split at h
  · cases h
  · rename_i cur hcur
    split at h
    · cases h
    · split at h
      · injection h with h
        subst h
        have hf := ScheduleWriteRetry_frame cb { s with write_in_progress_ := false } cur
          (failure_retry_count { s with write_in_progress_ := false }) now_retry
        refine ProcessNextWrite_slot _ now_next ?_
        intro hw
        have hw1 : (ScheduleWriteRetry cb { s with write_in_progress_ := false } cur
          (failure_retry_count { s with write_in_progress_ := false })
            now_retry).1.write_in_progress_ = true := hw
        rw [hf.2.1] at hw1
        cases hw1
      · injection h with h
        subst h
        refine ProcessNextWrite_slot _ now_next ?_
        intro hw
        cases hw

/-- Over a run a set in-progress flag always comes with a filled slot. -/
theorem run_slot (cb : Bool) (ops : List (Op W)) (s s1 : Sys W)
    (hinv : s.handler.write_in_progress_ = true → s.handler.write_val_.isSome = true)
    (h : Sys.run cb s ops = some s1) :
    s1.handler.write_in_progress_ = true → s1.handler.write_val_.isSome = true := by
  induction ops generalizing s with
  | nil =>
    simp only [Sys.run, Option.some.injEq] at h
    subst h
    exact hinv
  | cons op ops ih =>
    simp only [Sys.run] at h
    split at h
    · cases h
    · rename_i s2 hs2
      refine ih s2 ?_ h
      cases op with
      | write p now =>
        simp only [Sys.step, Option.some.injEq] at hs2
        subst hs2
        show (WriteToStream s.handler p now).1.write_in_progress_ = true →
          (WriteToStream s.handler p now).1.write_val_.isSome = true
        cases h1 : s.handler.writes_done_ <;> cases h2 : s.handler.stream_cancelled_ <;>
          cases h3 : s.handler.stream_finished_ <;> cases h4 : s.handler.write_in_progress_ <;>
          simp [WriteToStream, h1, h2, h3, h4] <;> simpa [h4] using hinv
      | process now =>
        simp only [Sys.step, Option.some.injEq] at hs2
        subst hs2
        exact ProcessNextWrite_slot s.handler now hinv
      | set_writes_done =>
        simp only [Sys.step, Option.some.injEq] at hs2
        subst hs2
        exact hinv
      | set_stream_cancelled =>
        simp only [Sys.step, Option.some.injEq] at hs2
        subst hs2
        exact hinv
      | set_stream_finished =>
        simp only [Sys.step, Option.some.injEq] at hs2
        subst hs2
        exact hinv
      | write_done ok now_retry now_next =>
        simp only [Sys.step] at hs2
        split at hs2
        · cases hs2
        · split at hs2
          · cases hs2
          · rename_i r hr
            simp only [Option.some.injEq] at hs2
            subst hs2
            exact WriteDoneEvent_slot cb s.handler ok now_retry now_next r hr

/-! ## Bounds on the retry counts in the queue -/

/-- The dispatch loop keeps the retry parameters and only removes entries from
the queue. -/
theorem ProcessNextWrite_bounds (s : NutanixGrpcBidiStreamHandler W) (now : Int)
    (h : ∀ e ∈ s.write_queue_, 0 ≤ e.retry_count ∧
      e.retry_count ≤ s.max_write_retry_attempts_ - 1) :
    (ProcessNextWrite s now).1.max_write_retry_attempts_ = s.max_write_retry_attempts_ ∧
    (ProcessNextWrite s now).1.write_retry_initial_delay_ms_ =
      s.write_retry_initial_delay_ms_ ∧
    ∀ e ∈ (ProcessNextWrite s now).1.write_queue_, 0 ≤ e.retry_count ∧
      e.retry_count ≤ s.max_write_retry_attempts_ - 1 := by
  rcases ProcessNextWrite_cases s now with h0 | ⟨nw, rest, hq, _, _, _, _, _, h1⟩
  · rw [h0]
    exact ⟨rfl, rfl, h⟩
  · rw [h1]
    refine ⟨rfl, rfl, fun e he => h e ?_⟩
    rw [hq]
    exact List.mem_cons_of_mem _ he

/-- With counts in the queue between 0 and the maximum minus one, and the
maximum an `int` that is at least 1, the count computed on a failure is between
0 and the maximum. -/
theorem failure_retry_count_bounds (s : NutanixGrpcBidiStreamHandler W)
    (hmin : 1 ≤ s.max_write_retry_attempts_)
    (hint : s.max_write_retry_attempts_ ≤ 2147483647)
    (h : ∀ e ∈ s.write_queue_, 0 ≤ e.retry_count ∧
      e.retry_count ≤ s.max_write_retry_attempts_ - 1) :
    0 ≤ failure_retry_count s ∧ failure_retry_count s ≤ s.max_write_retry_attempts_ := by
  unfold failure_retry_count
  split
  · omega
  · rename_i front rest hq
    have hf := h front (by rw [hq]; exact List.mem_cons_self _ _)
    rw [wrap32_of_range _ (by omega) (by omega)]
    omega

/-- The retry scheduler keeps the retry parameters; an entry it adds carries
the count it was given, which is below the maximum. -/
theorem ScheduleWriteRetry_bounds (cb : Bool) (s : NutanixGrpcBidiStreamHandler W) (p : W)
    (k now : Int) (hk : 0 ≤ k)
    (h : ∀ e ∈ s.write_queue_, 0 ≤ e.retry_count ∧
      e.retry_count ≤ s.max_write_retry_attempts_ - 1) :
    (ScheduleWriteRetry cb s p k now).1.max_write_retry_attempts_ =
      s.max_write_retry_attempts_ ∧
    (ScheduleWriteRetry cb s p k now).1.write_retry_initial_delay_ms_ =
      s.write_retry_initial_delay_ms_ ∧
    ∀ e ∈ (ScheduleWriteRetry cb s p k now).1.write_queue_, 0 ≤ e.retry_count ∧
      e.retry_count ≤ s.max_write_retry_attempts_ - 1 := by
  unfold ScheduleWriteRetry
  split
  · exact ⟨rfl, rfl, h⟩
  · rename_i hlt
    refine ⟨rfl, rfl, fun e he => ?_⟩
    simp only [List.mem_append, List.mem_singleton] at he
    rcases he with he | he
    · exact h e he
    · subst he
      simp only [QueuedWrite.ctor]
      omega

/-- A `WriteDoneEvent` that returns keeps the retry parameters and the bounds
on the retry counts in the queue. -/
theorem WriteDoneEvent_bounds (cb : Bool) (s : NutanixGrpcBidiStreamHandler W) (ok : Bool)
    (now_retry now_next : Int) (r : NutanixGrpcBidiStreamHandler W × List (Event W))
    (hmin : 1 ≤ s.max_write_retry_attempts_)
    (hint : s.max_write_retry_attempts_ ≤ 2147483647)
    (h : ∀ e ∈ s.write_queue_, 0 ≤ e.retry_count ∧
      e.retry_count ≤ s.max_write_retry_attempts_ - 1)
    (hr : WriteDoneEvent cb s ok now_retry now_next = Except.ok r) :
    r.1.max_write_retry_attempts_ = s.max_write_retry_attempts_ ∧
    r.1.write_retry_initial_delay_ms_ = s.write_retry_initial_delay_ms_ ∧
    ∀ e ∈ r.1.write_queue_, 0 ≤ e.retry_count ∧
      e.retry_count ≤ s.max_write_retry_attempts_ - 1 := by
  unfold WriteDoneEvent at hr
  split at hr
  · cases hr
  · rename_i cur hcur
    split at hr
    · cases hr
    · split at hr
      · injection hr with hr
        subst hr
        have hk := (failure_retry_count_bounds { s with write_in_progress_ := false }
          hmin hint h).1
        obtain ⟨b1, b2, b3⟩ := ScheduleWriteRetry_bounds cb
          { s with write_in_progress_ := false } cur
          (failure_retry_count { s with write_in_progress_ := false }) now_retry hk h
        obtain ⟨c1, c2, c3⟩ := ProcessNextWrite_bounds
          { (ScheduleWriteRetry cb { s with write_in_progress_ := false } cur
              (failure_retry_count { s with write_in_progress_ := false }) now_retry).1 with
            write_val_ := (ScheduleWriteRetry cb { s with write_in_progress_ := false } cur
              (failure_retry_count { s with write_in_progress_ := false }) now_retry).2.1 }
          now_next (fun e he => by
            have := b3 e he
            have hb : (ScheduleWriteRetry cb { s with write_in_progress_ := false } cur
              (failure_retry_count { s with write_in_progress_ := false })
                now_retry).1.max_write_retry_attempts_ = s.max_write_retry_attempts_ := b1
            show 0 ≤ e.retry_count ∧ e.retry_count ≤
              (ScheduleWriteRetry cb { s with write_in_progress_ := false } cur
                (failure_retry_count { s with write_in_progress_ := false })
                  now_retry).1.max_write_retry_attempts_ - 1
            rw [hb]
            exact this)
        refine ⟨c1.trans b1, c2.trans b2, fun e he => ?_⟩
        have := c3 e he
        have hb : (ScheduleWriteRetry cb { s with write_in_progress_ := false } cur
          (failure_retry_count { s with write_in_progress_ := false })
            now_retry).1.max_write_retry_attempts_ = s.max_write_retry_attempts_ := b1
        have hthis : 0 ≤ e.retry_count ∧ e.retry_count ≤
            (ScheduleWriteRetry cb { s with write_in_progress_ := false } cur
              (failure_retry_count { s with write_in_progress_ := false })
                now_retry).1.max_write_retry_attempts_ - 1 := this
        rw [hb] at hthis
        exact hthis
      · injection hr with hr
        subst hr
        exact ProcessNextWrite_bounds { s with write_val_ := none, write_in_progress_ := false }
          now_next h

/-- The submission path keeps the retry parameters, and an entry it adds has
retry count 0. -/
theorem WriteToStream_bounds (s : NutanixGrpcBidiStreamHandler W) (p : W) (now : Int)
    (hmin : 1 ≤ s.max_write_retry_attempts_)
    (h : ∀ e ∈ s.write_queue_, 0 ≤ e.retry_count ∧
      e.retry_count ≤ s.max_write_retry_attempts_ - 1) :
    (WriteToStream s p now).1.max_write_retry_attempts_ = s.max_write_retry_attempts_ ∧
    (WriteToStream s p now).1.write_retry_initial_delay_ms_ =
      s.write_retry_initial_delay_ms_ ∧
    ∀ e ∈ (WriteToStream s p now).1.write_queue_, 0 ≤ e.retry_count ∧
      e.retry_count ≤ s.max_write_retry_attempts_ - 1 := by
  unfold WriteToStream
  split
  · exact ⟨rfl, rfl, h⟩
  · split
    · refine ⟨rfl, rfl, fun e he => ?_⟩
      simp only [List.mem_append, List.mem_singleton] at he
      rcases he with he | he
      · exact h e he
      · subst he
        simp only [QueuedWrite.ctor]
        omega
    · exact ⟨rfl, rfl, h⟩

/-- Over a run the retry parameters stay what they are and the retry counts in
the queue stay between 0 and the maximum minus one. -/
theorem run_bounds (cb : Bool) (ops : List (Op W)) (s s1 : Sys W)
    (hmin : 1 ≤ s.handler.max_write_retry_attempts_)
    (hint : s.handler.max_write_retry_attempts_ ≤ 2147483647)
    (h : ∀ e ∈ s.handler.write_queue_, 0 ≤ e.retry_count ∧
      e.retry_count ≤ s.handler.max_write_retry_attempts_ - 1)
    (hr : Sys.run cb s ops = some s1) :
    s1.handler.max_write_retry_attempts_ = s.handler.max_write_retry_attempts_ ∧
    s1.handler.write_retry_initial_delay_ms_ = s.handler.write_retry_initial_delay_ms_ ∧
    ∀ e ∈ s1.handler.write_queue_, 0 ≤ e.retry_count ∧
      e.retry_count ≤ s.handler.max_write_retry_attempts_ - 1 := by
  induction ops generalizing s with
  | nil =>
    simp only [Sys.run, Option.some.injEq] at hr
    subst hr
    exact ⟨rfl, rfl, h⟩
  | cons op ops ih =>
    simp only [Sys.run] at hr
    split at hr
    · cases hr
    · rename_i s2 hs2
      have hstep : s2.handler.max_write_retry_attempts_ = s.handler.max_write_retry_attempts_ ∧
          s2.handler.write_retry_initial_delay_ms_ = s.handler.write_retry_initial_delay_ms_ ∧
          ∀ e ∈ s2.handler.write_queue_, 0 ≤ e.retry_count ∧
            e.retry_count ≤ s.handler.max_write_retry_attempts_ - 1 := by
        cases op with
        | write p now =>
          simp only [Sys.step, Option.some.injEq] at hs2
          subst hs2
          exact WriteToStream_bounds s.handler p now hmin h
        | process now =>
          simp only [Sys.step, Option.some.injEq] at hs2
          subst hs2
          exact ProcessNextWrite_bounds s.handler now h
        | set_writes_done =>
          simp only [Sys.step, Option.some.injEq] at hs2
          subst hs2
          exact ⟨rfl, rfl, h⟩
        | set_stream_cancelled =>
          simp only [Sys.step, Option.some.injEq] at hs2
          subst hs2
          exact ⟨rfl, rfl, h⟩
        | set_stream_finished =>
          simp only [Sys.step, Option.some.injEq] at hs2
          subst hs2
          exact ⟨rfl, rfl, h⟩
        | write_done ok now_retry now_next =>
          simp only [Sys.step] at hs2
          split at hs2
          · cases hs2
          · split at hs2
            · cases hs2
            · rename_i r hr2
              simp only [Option.some.injEq] at hs2
              subst hs2
              exact WriteDoneEvent_bounds cb s.handler ok now_retry now_next r hmin hint h hr2
      obtain ⟨m1, m2, m3⟩ := hstep
      obtain ⟨n1, n2, n3⟩ := ih s2 (by rw [m1]; exact hmin) (by rw [m1]; exact hint)
        (fun e he => by rw [m1]; exact m3 e he) hr
      exact ⟨n1.trans m1, n2.trans m2, fun e he => by
        have := n3 e he
        rw [m1] at this
        exact this⟩

/-- Below the maximum the retry scheduler queues its payload with `next_retry`
= now + `delay_ms`. -/
theorem ScheduleWriteRetry_delay (cb : Bool) (s : NutanixGrpcBidiStreamHandler W) (p : W)
    (k now : Int) (hk : k < s.max_write_retry_attempts_) :
    (ScheduleWriteRetry cb s p k now).1.write_queue_ =
      s.write_queue_ ++ [{ write_val := p, retry_count := k, next_retry := now + delay_ms s k }] := by
  unfold ScheduleWriteRetry
  rw [if_neg (by omega)]
  rfl

/-- With initial delay 100 the delay for a count from 0 to 2 is 100, 200 or
400 ms and equals the exact product 100 * 2^k. -/
theorem delay_ms_default (h : NutanixGrpcBidiStreamHandler W) (k : Int)
    (hd : h.write_retry_initial_delay_ms_ = 100) (h0 : 0 ≤ k) (h2 : k ≤ 2) :
    (delay_ms h k = 100 ∨ delay_ms h k = 200 ∨ delay_ms h k = 400) ∧
    delay_ms h k = 100 * 2 ^ k.toNat := by
  unfold delay_ms
  rw [hd]
  interval_cases k <;> decide

/-! ## Order of first submissions -/

theorem written_append (x y : List (Op W)) : written (x ++ y) = written x ++ written y := by
  induction x with
  | nil => rfl
  | cons op ops ih =>
    rw [List.cons_append, written_cons, written_cons op ops, ih, List.append_assoc]

/-- Once p was met before q, appending more submissions does not change that. -/
theorem first_before_append [DecidableEq W] (p q : W) (l m : List W)
    (h : first_before p q l = true) : first_before p q (l ++ m) = true := by
  induction l with
  | nil => simp [first_before] at h
  | cons x xs ih =>
    simp only [List.cons_append, first_before] at h ⊢
    by_cases hx : x = p
    · simp [hx]
    · simp only [hx, if_false] at h ⊢
      by_cases hq : x = q
      · simp [hq] at h
      · simp only [hq, if_false] at h ⊢
        exact ih h

/-- When q was not submitted so far and p is submitted next, p is first. -/
theorem first_before_snoc [DecidableEq W] (p q : W) (l : List W) (h : q ∉ l) :
    first_before p q (l ++ [p]) = true := by
  induction l with
  | nil => simp [first_before]
  | cons x xs ih =>
    simp only [List.cons_append, first_before]
    by_cases hx : x = p
    · simp [hx]
    · simp only [hx, if_false]
      have hq : ¬ x = q := fun e => h (by rw [← e]; exact List.mem_cons_self _ _)
      simp only [hq, if_false]
      exact ih (fun hm => h (List.mem_cons_of_mem _ hm))

/-- When q was not submitted so far and p is among what was, p is first. -/
theorem first_before_of_mem [DecidableEq W] (p q : W) (l : List W) (hp : p ∈ l) (h : q ∉ l) :
    first_before p q l = true := by
  induction l with
  | nil => cases hp
  | cons x xs ih =>
    simp only [first_before]
    by_cases hx : x = p
    · simp [hx]
    · simp only [hx, if_false]
      have hq : ¬ x = q := fun e => h (by rw [← e]; exact List.mem_cons_self _ _)
      simp only [hq, if_false]
      rcases List.mem_cons.mp hp with h1 | h1
      · exact absurd h1.symm hx
      · exact ih h1 (fun hm => h (List.mem_cons_of_mem _ hm))

/-- What the dispatch loop does to the queue: nothing, or it submits the payload
at the front and leaves the payloads behind it. -/
theorem ProcessNextWrite_front (s : NutanixGrpcBidiStreamHandler W) (now : Int) :
    (submitted (ProcessNextWrite s now).2 = [] ∧ in_flight (ProcessNextWrite s now).1 = in_flight s ∧
      queued (ProcessNextWrite s now).1 = queued s) ∨
    ∃ x rest, queued s = x :: rest ∧ submitted (ProcessNextWrite s now).2 = [x] ∧
      in_flight (ProcessNextWrite s now).1 = [x] ∧ queued (ProcessNextWrite s now).1 = rest := by
  rcases ProcessNextWrite_cases s now with h0 | ⟨nw, rest, hq, _, _, _, _, _, h1⟩
  · rw [h0]
    exact Or.inl ⟨rfl, rfl, rfl⟩
  · rw [h1]
    exact Or.inr ⟨nw.write_val, rest.map QueuedWrite.write_val, by simp [queued, hq], rfl,
      by simp [in_flight], rfl⟩

/-- A `WriteDoneEvent` that returns behaves towards the queue like the dispatch
loop run on a handler whose queue is the old one, or the old one with one
payload appended. -/
theorem WriteDoneEvent_front (cb : Bool) (s : NutanixGrpcBidiStreamHandler W) (ok : Bool)
    (now_retry now_next : Int) (r : NutanixGrpcBidiStreamHandler W × List (Event W))
    (h : WriteDoneEvent cb s ok now_retry now_next = Except.ok r) :
    ∃ s3 : NutanixGrpcBidiStreamHandler W,
      (queued s3 = queued s ∨ ∃ c, queued s3 = queued s ++ [c]) ∧
      r.1 = (ProcessNextWrite s3 now_next).1 ∧
      submitted r.2 = submitted (ProcessNextWrite s3 now_next).2 := by
  unfold WriteDoneEvent at h
  split at h
  · cases h
  · rename_i cur hcur
    split at h
    · cases h
    · split at h
      · injection h with h
        subst h
        have hf := ScheduleWriteRetry_frame cb { s with write_in_progress_ := false } cur
          (failure_retry_count { s with write_in_progress_ := false }) now_retry
        refine ⟨_, ?_, rfl, ?_⟩
        · show queued (ScheduleWriteRetry cb { s with write_in_progress_ := false } cur
            (failure_retry_count { s with write_in_progress_ := false }) now_retry).1 = queued s ∨
            ∃ c, queued (ScheduleWriteRetry cb { s with write_in_progress_ := false } cur
            (failure_retry_count { s with write_in_progress_ := false }) now_retry).1 =
              queued s ++ [c]
          unfold ScheduleWriteRetry
          split
          · exact Or.inl rfl
          · exact Or.inr ⟨cur, by simp [queued, QueuedWrite.ctor]⟩
        · simp only [submitted_append, hf.1]
          simp [submitted]
      · injection h with h
        subst h
        refine ⟨{ s with write_val_ := none, write_in_progress_ := false }, Or.inl rfl, rfl, ?_⟩
        simp only [submitted_append]
        simp [submitted]

/-- What `WriteToStream` does to the queue and the transport: nothing, or it
appends its payload to the queue, or it submits its payload. -/
theorem WriteToStream_front (s : NutanixGrpcBidiStreamHandler W) (w : W) (now : Int) :
    (submitted (WriteToStream s w now).2.2 = [] ∧
      (queued (WriteToStream s w now).1 = queued s ∨
        queued (WriteToStream s w now).1 = queued s ++ [w])) ∨
    (submitted (WriteToStream s w now).2.2 = [w] ∧
      queued (WriteToStream s w now).1 = queued s) := by
  cases h1 : s.writes_done_ <;> cases h2 : s.stream_cancelled_ <;>
    cases h3 : s.stream_finished_ <;> cases h4 : s.write_in_progress_ <;>
    simp [WriteToStream, h1, h2, h3, h4, submitted, queued, QueuedWrite.ctor]

/-- What `WriteToStream` submits is in flight afterwards. -/
theorem WriteToStream_submitted_in_flight (s : NutanixGrpcBidiStreamHandler W) (w : W)
    (now : Int) :
    ∀ x ∈ submitted (WriteToStream s w now).2.2, x ∈ in_flight (WriteToStream s w now).1 := by
  cases h1 : s.writes_done_ <;> cases h2 : s.stream_cancelled_ <;>
    cases h3 : s.stream_finished_ <;> cases h4 : s.write_in_progress_ <;>
    simp [WriteToStream, h1, h2, h3, h4, submitted, in_flight]

/-- One step, seen from the queue. Its events are appended to the trace. Either
it submits nothing and the queue keeps its payloads, with at most one appended;
or it submits the payload at the front of the queue (taken after a possible
append) and the queue is what was behind it; or it is a write whose payload is
submitted at once, past the queue. What is submitted is in flight afterwards. -/
theorem step_front (cb : Bool) (s s1 : Sys W) (op : Op W)
    (h : Sys.step cb s op = some s1) :
    ∃ evs t, s1.trace = s.trace ++ evs ∧
      (∀ x ∈ submitted evs, x ∈ in_flight s1.handler) ∧
      ((submitted evs = [] ∧ queued s1.handler = queued s.handler ++ t) ∨
       (∃ x, submitted evs = [x] ∧ queued s.handler ++ t = x :: queued s1.handler) ∨
       (∃ w, w ∈ written [op] ∧ submitted evs = [w] ∧
         queued s1.handler = queued s.handler)) := by
  cases op with
  | write w now =>
    simp only [Sys.step, Option.some.injEq] at h
    subst h
    refine ⟨(WriteToStream s.handler w now).2.2, ?_⟩
    rcases WriteToStream_front s.handler w now with ⟨h1, h2 | h2⟩ | ⟨h1, h2⟩
    · exact ⟨[], rfl, WriteToStream_submitted_in_flight s.handler w now,
        Or.inl ⟨h1, by rw [List.append_nil]; exact h2⟩⟩
    · exact ⟨[w], rfl, WriteToStream_submitted_in_flight s.handler w now, Or.inl ⟨h1, h2⟩⟩
    · exact ⟨[], rfl, WriteToStream_submitted_in_flight s.handler w now,
        Or.inr (Or.inr ⟨w, by simp [written], h1, h2⟩)⟩
  | process now =>
    simp only [Sys.step, Option.some.injEq] at h
    subst h
    refine ⟨(ProcessNextWrite s.handler now).2, [], rfl, ?_⟩
    rcases ProcessNextWrite_front s.handler now with ⟨h1, _, h3⟩ | ⟨x, rest, hq, h1, h2, h3⟩
    · refine ⟨fun x hx => ?_, Or.inl ⟨h1, by rw [List.append_nil]; exact h3⟩⟩
      have hx1 : x ∈ submitted (ProcessNextWrite s.handler now).2 := hx
      rw [h1] at hx1
      cases hx1
    · refine ⟨fun y hy => ?_, Or.inr (Or.inl ⟨x, h1, ?_⟩)⟩
      · have hy1 : y ∈ submitted (ProcessNextWrite s.handler now).2 := hy
        rw [h1] at hy1
        show y ∈ in_flight (ProcessNextWrite s.handler now).1
        rw [h2]
        exact hy1
      · show queued s.handler ++ [] = x :: queued (ProcessNextWrite s.handler now).1
        rw [List.append_nil, hq, h3]
  | set_writes_done =>
    simp only [Sys.step, Option.some.injEq] at h
    subst h
    exact ⟨[], [], by simp, by simp [submitted], Or.inl ⟨rfl, by simp [queued, set_closing_flag]⟩⟩
  | set_stream_cancelled =>
    simp only [Sys.step, Option.some.injEq] at h
    subst h
    exact ⟨[], [], by simp, by simp [submitted], Or.inl ⟨rfl, by simp [queued, set_closing_flag]⟩⟩
  | set_stream_finished =>
    simp only [Sys.step, Option.some.injEq] at h
    subst h
    exact ⟨[], [], by simp, by simp [submitted], Or.inl ⟨rfl, by simp [queued, set_closing_flag]⟩⟩
  | write_done ok now_retry now_next =>
    simp only [Sys.step] at h
    split at h
    · cases h
    · split at h
      · cases h
      · rename_i r hr
        simp only [Option.some.injEq] at h
        subst h
        obtain ⟨s3, hq3, hr1, hr2⟩ := WriteDoneEvent_front cb s.handler ok now_retry now_next r hr
        have ht : ∃ t, queued s3 = queued s.handler ++ t := by
          rcases hq3 with h0 | ⟨c, hc⟩
          · exact ⟨[], by rw [List.append_nil]; exact h0⟩
          · exact ⟨[c], hc⟩
        obtain ⟨t, ht⟩ := ht
        refine ⟨r.2, t, rfl, ?_⟩
        show (∀ x ∈ submitted r.2, x ∈ in_flight r.1) ∧
          ((submitted r.2 = [] ∧ queued r.1 = queued s.handler ++ t) ∨
           (∃ x, submitted r.2 = [x] ∧ queued s.handler ++ t = x :: queued r.1) ∨
           (∃ w, w ∈ written [Op.write_done ok now_retry now_next] ∧ submitted r.2 = [w] ∧
             queued r.1 = queued s.handler))
        rw [hr1, hr2, ← ht]
        rcases ProcessNextWrite_front s3 now_next with ⟨h1, _, h3⟩ | ⟨x, rest, hq, h1, h2, h3⟩
        · refine ⟨fun x hx => ?_, Or.inl ⟨h1, h3⟩⟩
          rw [h1] at hx
          cases hx
        · refine ⟨fun y hy => ?_, Or.inr (Or.inl ⟨x, h1, ?_⟩)⟩
          · rw [h1] at hy
            rw [h2]
            exact hy
          · rw [hq, h3]

/-- Over a run from a state in which conservation holds, every submitted
payload is an accepted one. -/
theorem run_submitted_accepted [DecidableEq W] (cb : Bool) (ops : List (Op W)) (s s1 : Sys W)
    (hinv : ∀ q, (in_flight s.handler).count q + (queued s.handler).count q +
      (delivered s.trace).count q = s.accepted.count q)
    (hslot : cb = true → s.handler.write_in_progress_ = false → s.handler.write_val_ = none)
    (hsub : ∀ x ∈ submitted s.trace, x ∈ s.accepted)
    (h : Sys.run cb s ops = some s1) :
    ∀ x ∈ submitted s1.trace, x ∈ s1.accepted := by
  induction ops generalizing s with
  | nil =>
    simp only [Sys.run, Option.some.injEq] at h
    subst h
    exact hsub
  | cons op ops ih =>
    simp only [Sys.run] at h
    split at h
    · cases h
    · rename_i s2 hs2
      obtain ⟨hinv2, hslot2⟩ := step_conserve cb s s2 op hinv hslot hs2
      obtain ⟨l, _, hl⟩ := step_accepted cb s s2 op hs2
      obtain ⟨evs, t, htr, hfl, _⟩ := step_front cb s s2 op hs2
      refine ih s2 hinv2 hslot2 ?_ h
      intro x hx
      rw [htr, submitted_append, List.mem_append] at hx
      rcases hx with hx | hx
      · rw [hl]
        exact List.mem_append_left _ (hsub x hx)
      · have h1 : 0 < (in_flight s2.handler).count x := List.count_pos_iff.mpr (hfl x hx)
        have h2 := hinv2 x
        exact List.count_pos_iff.mp (by omega)

/-- A queued payload stays queued until it is submitted. -/
theorem run_queued_or_submitted (cb : Bool) (ops : List (Op W)) (s s1 : Sys W) (p : W)
    (hp : p ∈ queued s.handler ∨ p ∈ submitted s.trace)
    (h : Sys.run cb s ops = some s1) :
    p ∈ queued s1.handler ∨ p ∈ submitted s1.trace := by
  induction ops generalizing s with
  | nil =>
    simp only [Sys.run, Option.some.injEq] at h
    subst h
    exact hp
  | cons op ops ih =>
    simp only [Sys.run] at h
    split at h
    · cases h
    · rename_i s2 hs2
      refine ih s2 ?_ h
      obtain ⟨evs, t, htr, _, hcase⟩ := step_front cb s s2 op hs2
      rw [htr, submitted_append]
      rcases hp with hp | hp
      · rcases hcase with ⟨_, h2⟩ | ⟨x, h1, h2⟩ | ⟨w, _, _, h3⟩
        · exact Or.inl (by rw [h2]; exact List.mem_append_left _ hp)
        · have hm : p ∈ x :: queued s2.handler := by
            rw [← h2]
            exact List.mem_append_left _ hp
          rcases List.mem_cons.mp hm with e | e
          · exact Or.inr (List.mem_append_right _ (by rw [h1, e]; exact List.mem_singleton_self _))
          · exact Or.inl e
        · exact Or.inl (by rw [h3]; exact hp)
      · exact Or.inr (List.mem_append_left _ hp)

/-- The order invariant for two payloads p and q, kept by a step that does not
write q: either the first submission of p came before every submission of q, or
q was not submitted yet and waits in the queue behind p. -/
theorem step_order [DecidableEq W] (cb : Bool) (s s1 : Sys W) (op : Op W) (p q : W)
    (hw : q ∉ written [op])
    (hinv : first_before p q (submitted s.trace) = true ∨
      (q ∉ submitted s.trace ∧ ∃ u v, queued s.handler = u ++ q :: v ∧ p ∈ u ∧ q ∉ u))
    (h : Sys.step cb s op = some s1) :
    first_before p q (submitted s1.trace) = true ∨
      (q ∉ submitted s1.trace ∧ ∃ u v, queued s1.handler = u ++ q :: v ∧ p ∈ u ∧ q ∉ u) := by
  obtain ⟨evs, t, htr, _, hcase⟩ := step_front cb s s1 op h
  rw [htr, submitted_append]
  rcases hinv with hfb | ⟨hns, u, v, hq, hpu, hqu⟩
  · exact Or.inl (first_before_append p q _ _ hfb)
  · rcases hcase with ⟨h1, h2⟩ | ⟨x, h1, h2⟩ | ⟨w, hww, h1, h3⟩
    · refine Or.inr ⟨by rw [h1, List.append_nil]; exact hns, u, v ++ t, ?_, hpu, hqu⟩
      rw [h2, hq]
      simp
    · cases u with
      | nil => cases hpu
      | cons y u1 =>
        rw [hq] at h2
        simp only [List.cons_append, List.append_assoc, List.cons.injEq] at h2
        obtain ⟨hyx, hrest⟩ := h2
        subst hyx
        by_cases hyp : y = p
        · subst hyp
          rw [h1]
          exact Or.inl (first_before_snoc y q _ hns)
        · have hpu1 : p ∈ u1 := by
            rcases List.mem_cons.mp hpu with e | e
            · exact absurd e.symm hyp
            · exact e
          have hyq : y ≠ q := fun e => hqu (by rw [e]; exact List.mem_cons_self _ _)
          refine Or.inr ⟨?_, u1, v ++ t, ?_, hpu1, fun hm => hqu (List.mem_cons_of_mem _ hm)⟩
          · rw [h1]
            simp only [List.mem_append, List.mem_singleton, not_or]
            exact ⟨hns, fun e => hyq e.symm⟩
          · rw [← hrest]
    · have hwq : w ≠ q := fun e => hw (by rw [← e]; exact hww)
      refine Or.inr ⟨?_, u, v, by rw [h3, hq], hpu, hqu⟩
      rw [h1]
      simp only [List.mem_append, List.mem_singleton, not_or]
      exact ⟨hns, fun e => hwq e.symm⟩

/-- The order invariant is kept by a run that does not write q. -/
theorem run_order [DecidableEq W] (cb : Bool) (ops : List (Op W)) (s s1 : Sys W) (p q : W)
    (hw : q ∉ written ops)
    (hinv : first_before p q (submitted s.trace) = true ∨
      (q ∉ submitted s.trace ∧ ∃ u v, queued s.handler = u ++ q :: v ∧ p ∈ u ∧ q ∉ u))
    (h : Sys.run cb s ops = some s1) :
    first_before p q (submitted s1.trace) = true ∨
      (q ∉ submitted s1.trace ∧ ∃ u v, queued s1.handler = u ++ q :: v ∧ p ∈ u ∧ q ∉ u) := by
  induction ops generalizing s with
  | nil =>
    simp only [Sys.run, Option.some.injEq] at h
    subst h
    exact hinv
  | cons op ops ih =>
    simp only [Sys.run] at h
    split at h
    · cases h
    · rename_i s2 hs2
      rw [written_cons] at hw
      simp only [List.mem_append, not_or] at hw
      exact ih s2 hw.2 (step_order cb s s2 op p q hw.1 hinv hs2) h

/-- A write that is accepted is queued or submitted at once. -/
theorem WriteToStream_accepted (s : NutanixGrpcBidiStreamHandler W) (w : W) (now : Int)
    (h : (WriteToStream s w now).2.1 ≠ WriteStatus.kWriteEndClosed) :
    w ∈ queued (WriteToStream s w now).1 ∨ w ∈ submitted (WriteToStream s w now).2.2 := by
  revert h
  cases h1 : s.writes_done_ <;> cases h2 : s.stream_cancelled_ <;>
    cases h3 : s.stream_finished_ <;> cases h4 : s.write_in_progress_ <;>
    simp [WriteToStream, h1, h2, h3, h4, submitted, queued, QueuedWrite.ctor]

/-- A write answered with `kQueuedForRetry` went to the back of the queue and
nothing was submitted. -/
theorem WriteToStream_queued (s : NutanixGrpcBidiStreamHandler W) (w : W) (now : Int)
    (h : (WriteToStream s w now).2.1 = WriteStatus.kQueuedForRetry) :
    queued (WriteToStream s w now).1 = queued s ++ [w] ∧
    submitted (WriteToStream s w now).2.2 = [] := by
  revert h
  cases h1 : s.writes_done_ <;> cases h2 : s.stream_cancelled_ <;>
    cases h3 : s.stream_finished_ <;> cases h4 : s.write_in_progress_ <;>
    simp [WriteToStream, h1, h2, h3, h4, submitted, queued, QueuedWrite.ctor]

/-! ## The claims -/

/-- C1. Single flight: in every state reachable from the constructor's state by
`WriteToStream`, `ProcessNextWrite`, closing-flag events and `WriteDoneEvent`
(either outcome, delivered only for an outstanding transport write), the number
of writes handed to the transport and not yet completed is at most 1, and it is
1 exactly when `write_in_progress_` is true. -/
theorem C1_single_flight (cb : Bool) (flag_max flag_delay : Int) (ops : List (Op W))
    (s : Sys W) (h : Sys.run cb (Sys.init W flag_max flag_delay) ops = some s) :
    s.outstanding ≤ 1 ∧ (s.outstanding = 1 ↔ s.handler.write_in_progress_ = true) := by
  have hinv := run_single_flight cb ops (Sys.init W flag_max flag_delay) s rfl h
  cases hw : s.handler.write_in_progress_ <;> simp [hinv, hw]

/-- C1 at the run `run_two_writes`: it ends with write 8 outstanding and
`write_in_progress_` set. -/
theorem C1_single_flight_witness :
    Sys.run true (Sys.init Nat 3 100) run_two_writes = some state_two_writes ∧
    (state_two_writes.outstanding ≤ 1 ∧
      (state_two_writes.outstanding = 1 ↔
        state_two_writes.handler.write_in_progress_ = true)) :=
  ⟨by decide, C1_single_flight true 3 100 run_two_writes state_two_writes (by decide)⟩

/-- C2. `WriteToStream` returns `kWriteEndClosed` exactly when one of
`writes_done_`, `stream_cancelled_`, `stream_finished_` is set at the call, and
then it has no side effect: the handler state is unchanged and nothing is handed
to the transport. -/
theorem C2_write_end_closed (s : NutanixGrpcBidiStreamHandler W) (p : W) (now : Int) :
    ((WriteToStream s p now).2.1 = WriteStatus.kWriteEndClosed ↔
      (s.writes_done_ = true ∨ s.stream_cancelled_ = true ∨ s.stream_finished_ = true)) ∧
    ((WriteToStream s p now).2.1 = WriteStatus.kWriteEndClosed →
      (WriteToStream s p now).1 = s ∧
      (WriteToStream s p now).1.write_in_progress_ = s.write_in_progress_ ∧
      (WriteToStream s p now).1.write_val_ = s.write_val_ ∧
      (WriteToStream s p now).1.write_queue_ = s.write_queue_ ∧
      submitted (WriteToStream s p now).2.2 = []) := by
  cases h1 : s.writes_done_ <;> cases h2 : s.stream_cancelled_ <;>
    cases h3 : s.stream_finished_ <;> cases h4 : s.write_in_progress_ <;>
    simp [WriteToStream, h1, h2, h3, h4, submitted]

/-- C2 at `handler_cancelled`: the write of 10 is rejected and the handler is
left as it was. -/
theorem C2_write_end_closed_witness :
    (WriteToStream handler_cancelled 10 5).2.1 = WriteStatus.kWriteEndClosed ∧
    ((WriteToStream handler_cancelled 10 5).1 = handler_cancelled ∧
      (WriteToStream handler_cancelled 10 5).1.write_in_progress_ =
        handler_cancelled.write_in_progress_ ∧
      (WriteToStream handler_cancelled 10 5).1.write_val_ = handler_cancelled.write_val_ ∧
      (WriteToStream handler_cancelled 10 5).1.write_queue_ = handler_cancelled.write_queue_ ∧
      submitted (WriteToStream handler_cancelled 10 5).2.2 = []) :=
  ⟨by decide, (C2_write_end_closed handler_cancelled 10 5).2 (by decide)⟩

/-- C3. With no closing flag set and a write in progress, `WriteToStream(p)`
returns `kQueuedForRetry`; the new queue is the old one followed by the single
entry (p, retry count 0, `next_retry` = the current time); the in-progress flag
and the in-flight slot are unchanged and nothing is handed to the transport. -/
theorem C3_write_queued (s : NutanixGrpcBidiStreamHandler W) (p : W) (now : Int)
    (hwd : s.writes_done_ = false) (hsc : s.stream_cancelled_ = false)
    (hsf : s.stream_finished_ = false) (hwip : s.write_in_progress_ = true) :
    (WriteToStream s p now).2.1 = WriteStatus.kQueuedForRetry ∧
    (WriteToStream s p now).1.write_queue_ =
      s.write_queue_ ++ [{ write_val := p, retry_count := 0, next_retry := now }] ∧
    (WriteToStream s p now).1.write_in_progress_ = s.write_in_progress_ ∧
    (WriteToStream s p now).1.write_val_ = s.write_val_ ∧
    submitted (WriteToStream s p now).2.2 = [] := by
  simp [WriteToStream, hwd, hsc, hsf, hwip, submitted, QueuedWrite.ctor]

/-- C3 at `handler_busy`: write 10 submitted at time 5 goes behind 8 and 9. -/
theorem C3_write_queued_witness :
    (WriteToStream handler_busy 10 5).2.1 = WriteStatus.kQueuedForRetry ∧
    (WriteToStream handler_busy 10 5).1.write_queue_ =
      handler_busy.write_queue_ ++ [{ write_val := 10, retry_count := 0, next_retry := 5 }] ∧
    (WriteToStream handler_busy 10 5).1.write_in_progress_ = handler_busy.write_in_progress_ ∧
    (WriteToStream handler_busy 10 5).1.write_val_ = handler_busy.write_val_ ∧
    submitted (WriteToStream handler_busy 10 5).2.2 = [] :=
  C3_write_queued handler_busy 10 5 (by decide) (by decide) (by decide) (by decide)

/-- C4. With no closing flag set and no write in progress, `WriteToStream(p)`
returns `kNoError`, sets `write_in_progress_`, puts p into the in-flight slot,
hands exactly p to the transport exactly once, and leaves the queue and the
closing flags unchanged. -/
theorem C4_write_dispatched (s : NutanixGrpcBidiStreamHandler W) (p : W) (now : Int)
    (hwd : s.writes_done_ = false) (hsc : s.stream_cancelled_ = false)
    (hsf : s.stream_finished_ = false) (hwip : s.write_in_progress_ = false) :
    (WriteToStream s p now).2.1 = WriteStatus.kNoError ∧
    (WriteToStream s p now).1.write_in_progress_ = true ∧
    (WriteToStream s p now).1.write_val_ = some p ∧
    submitted (WriteToStream s p now).2.2 = [p] ∧
    (WriteToStream s p now).1.write_queue_ = s.write_queue_ ∧
    (WriteToStream s p now).1.writes_done_ = s.writes_done_ ∧
    (WriteToStream s p now).1.stream_cancelled_ = s.stream_cancelled_ ∧
    (WriteToStream s p now).1.stream_finished_ = s.stream_finished_ := by
  simp [WriteToStream, hwd, hsc, hsf, hwip, submitted]

/-- C4 at the freshly constructed handler with the default flags. -/
theorem C4_write_dispatched_witness :
    (WriteToStream (NutanixGrpcBidiStreamHandler.ctor Nat 3 100) 7 0).2.1 =
      WriteStatus.kNoError ∧
    (WriteToStream (NutanixGrpcBidiStreamHandler.ctor Nat 3 100) 7 0).1.write_in_progress_ =
      true ∧
    (WriteToStream (NutanixGrpcBidiStreamHandler.ctor Nat 3 100) 7 0).1.write_val_ = some 7 ∧
    submitted (WriteToStream (NutanixGrpcBidiStreamHandler.ctor Nat 3 100) 7 0).2.2 = [7] ∧
    (WriteToStream (NutanixGrpcBidiStreamHandler.ctor Nat 3 100) 7 0).1.write_queue_ =
      (NutanixGrpcBidiStreamHandler.ctor Nat 3 100).write_queue_ ∧
    (WriteToStream (NutanixGrpcBidiStreamHandler.ctor Nat 3 100) 7 0).1.writes_done_ =
      (NutanixGrpcBidiStreamHandler.ctor Nat 3 100).writes_done_ ∧
    (WriteToStream (NutanixGrpcBidiStreamHandler.ctor Nat 3 100) 7 0).1.stream_cancelled_ =
      (NutanixGrpcBidiStreamHandler.ctor Nat 3 100).stream_cancelled_ ∧
    (WriteToStream (NutanixGrpcBidiStreamHandler.ctor Nat 3 100) 7 0).1.stream_finished_ =
      (NutanixGrpcBidiStreamHandler.ctor Nat 3 100).stream_finished_ :=
  C4_write_dispatched (NutanixGrpcBidiStreamHandler.ctor Nat 3 100) 7 0
    (by decide) (by decide) (by decide) (by decide)

/-- C5. Closing is inert: in a state with any closing flag set, `WriteToStream`
returns `kWriteEndClosed`, and neither `WriteToStream` nor `ProcessNextWrite`
nor `WriteDoneEvent` (either outcome) hands a write to the transport, whatever
the queue holds. -/
theorem C5_closing_inert (cb : Bool) (s : NutanixGrpcBidiStreamHandler W)
    (h : s.writes_done_ = true ∨ s.stream_cancelled_ = true ∨ s.stream_finished_ = true)
    (p : W) (now : Int) (ok : Bool) (now_retry now_next : Int) :
    (WriteToStream s p now).2.1 = WriteStatus.kWriteEndClosed ∧
    submitted (WriteToStream s p now).2.2 = [] ∧
    submitted (ProcessNextWrite s now).2 = [] ∧
    submitted (outcome_events (WriteDoneEvent cb s ok now_retry now_next)) = [] := by
  refine ⟨?_, ?_, ?_, ?_⟩
  · rcases h with h | h | h <;> simp [WriteToStream, h]
  · rcases h with h | h | h <;> simp [WriteToStream, h, submitted]
  · rw [ProcessNextWrite_closing s now h]; rfl
  · unfold WriteDoneEvent
    split
    · rfl
    · rename_i cur hcur
      split
      · rfl
      · split
        · have hf := ScheduleWriteRetry_frame cb { s with write_in_progress_ := false } cur
            (failure_retry_count { s with write_in_progress_ := false }) now_retry
          simp only [outcome_events]
          rw [ProcessNextWrite_closing _ now_next (by
            simp only [hf.2.2.1, hf.2.2.2.1, hf.2.2.2.2]; exact h)]
          simp only [submitted_append, hf.1]
          rfl
        · simp only [outcome_events]
          rw [ProcessNextWrite_closing _ now_next (by exact h)]
          rfl

/-- C5 at `handler_cancelled`, whose queue head (write 8, due at time 1) is
eligible at time 5: the failed completion of write 7 returns and submits
nothing. -/
theorem C5_closing_inert_witness :
    (WriteDoneEvent true handler_cancelled false 5 5).toBool = true ∧
    ((WriteToStream handler_cancelled 10 5).2.1 = WriteStatus.kWriteEndClosed ∧
      submitted (WriteToStream handler_cancelled 10 5).2.2 = [] ∧
      submitted (ProcessNextWrite handler_cancelled 5).2 = [] ∧
      submitted (outcome_events (WriteDoneEvent true handler_cancelled false 5 5)) = []) :=
  ⟨by decide, C5_closing_inert true handler_cancelled (Or.inr (Or.inl (by decide))) 10 5 false 5 5⟩

/-- C6. Conservation of writes: in every state reachable from the constructor's
state by operations whose written payloads are pairwise distinct, every payload
that `WriteToStream` accepted occurs exactly once among the payload in flight,
the entries of `write_queue_` and the payloads delivered to the callback; so it
is in exactly one of the three places, never both queued and in flight, never
dropped and never duplicated. When the callback takes the handle it is given,
the same holds with the content of `write_val_` itself as the payload in
flight. -/
theorem C6_conservation [DecidableEq W] (cb : Bool) (flag_max flag_delay : Int)
    (ops : List (Op W)) (s : Sys W) (hd : (written ops).Nodup)
    (h : Sys.run cb (Sys.init W flag_max flag_delay) ops = some s)
    (p : W) (hp : p ∈ s.accepted) :
    (in_flight s.handler).count p + (queued s.handler).count p +
      (delivered s.trace).count p = 1 ∧
    (cb = true →
      s.handler.write_val_.toList.count p + (queued s.handler).count p +
        (delivered s.trace).count p = 1) := by
  obtain ⟨hinv, hslot⟩ := run_conserve cb ops (Sys.init W flag_max flag_delay) s
    (fun q => by simp [Sys.init, NutanixGrpcBidiStreamHandler.ctor, in_flight, queued, delivered,
      callbacks])
    (fun _ _ => rfl) h
  obtain ⟨l, hl, he⟩ := run_accepted cb ops (Sys.init W flag_max flag_delay) s h
  have hnd : s.accepted.Nodup := by
    rw [he]
    simpa [Sys.init] using List.Nodup.sublist hl hd
  have h1 : (in_flight s.handler).count p + (queued s.handler).count p +
      (delivered s.trace).count p = 1 := by
    rw [hinv p]
    exact List.count_eq_one_of_mem hnd hp
  refine ⟨h1, fun hcb => ?_⟩
  cases hw : s.handler.write_in_progress_ with
  | true => simpa [in_flight, hw] using h1
  | false =>
    rw [hslot hcb hw]
    simpa [in_flight, hw] using h1

/-- C6 at the run `run_two_writes`: write 7, accepted first, failed once and
now sits in the queue only. -/
theorem C6_conservation_witness :
    (written run_two_writes).Nodup ∧
    Sys.run true (Sys.init Nat 3 100) run_two_writes = some state_two_writes ∧
    7 ∈ state_two_writes.accepted ∧
    ((in_flight state_two_writes.handler).count 7 + (queued state_two_writes.handler).count 7 +
        (delivered state_two_writes.trace).count 7 = 1 ∧
      (true = true →
        state_two_writes.handler.write_val_.toList.count 7 +
          (queued state_two_writes.handler).count 7 +
          (delivered state_two_writes.trace).count 7 = 1)) :=
  ⟨by decide, by decide, by decide,
    C6_conservation true 3 100 run_two_writes state_two_writes (by decide) (by decide) 7
      (by decide)⟩

/-- C7, evaluated under the default flags (maximum 3, initial delay 100) at
`run_always_failing`: the write of payload 7 fails five times with nothing else
queued. After every failure the queue holds the one retry entry of 7 with
`retry_count` 0 and a delay of 100 ms; the payload was handed to the transport
five times and the callback was never invoked, so `kAborted` is not delivered
at the fourth failure nor later. -/
theorem C7_lone_write_never_aborted :
    (Sys.run true (Sys.init Nat FLAGS_grpc_write_retry_max_attempts
        FLAGS_grpc_write_retry_initial_delay_ms) (run_always_failing.take 2)).map
      (fun s => (s.handler.write_queue_, callbacks s.trace)) =
      some ([{ write_val := 7, retry_count := 0, next_retry := 101 }], []) ∧
    (Sys.run true (Sys.init Nat FLAGS_grpc_write_retry_max_attempts
        FLAGS_grpc_write_retry_initial_delay_ms) (run_always_failing.take 4)).map
      (fun s => (s.handler.write_queue_, callbacks s.trace)) =
      some ([{ write_val := 7, retry_count := 0, next_retry := 202 }], []) ∧
    (Sys.run true (Sys.init Nat FLAGS_grpc_write_retry_max_attempts
        FLAGS_grpc_write_retry_initial_delay_ms) (run_always_failing.take 6)).map
      (fun s => (s.handler.write_queue_, callbacks s.trace)) =
      some ([{ write_val := 7, retry_count := 0, next_retry := 303 }], []) ∧
    (Sys.run true (Sys.init Nat FLAGS_grpc_write_retry_max_attempts
        FLAGS_grpc_write_retry_initial_delay_ms) (run_always_failing.take 8)).map
      (fun s => (s.handler.write_queue_, callbacks s.trace)) =
      some ([{ write_val := 7, retry_count := 0, next_retry := 404 }], []) ∧
    (Sys.run true (Sys.init Nat FLAGS_grpc_write_retry_max_attempts
        FLAGS_grpc_write_retry_initial_delay_ms) run_always_failing).map
      (fun s => (s.handler.write_queue_, callbacks s.trace, submitted s.trace)) =
      some ([{ write_val := 7, retry_count := 0, next_retry := 505 }], [], [7, 7, 7, 7, 7]) := by
  refine ⟨?_, ?_, ?_, ?_, ?_⟩ <;> decide

/-- C8, evaluated at `handler_first_attempt`, the state reached by
`WriteToStream(7)` and `WriteToStream(8)`: payload 7 fails on its first attempt
while 8 (retry count 0) is at the front of the queue. The retry count handed to
`ScheduleWriteRetry` is 1, the front entry's count plus one, not the 0 recorded
for 7; the retry of 7 is queued with `retry_count` 1 and a delay of 200 ms. -/
theorem C8_retry_count_from_queue_front :
    (Sys.run true (Sys.init Nat 3 100) [Op.write 7 0, Op.write 8 1]).map Sys.handler =
      some handler_first_attempt ∧
    failure_retry_count { handler_first_attempt with write_in_progress_ := false } = 1 ∧
    (outcome_handler (WriteDoneEvent true handler_first_attempt false 2 2)).map
        (fun h => (h.write_val_, h.write_queue_)) =
      some (some 8, [{ write_val := 7, retry_count := 1, next_retry := 202 }]) := by
  decide

/-- C9, as amended. For an attempt count k with 0 ≤ k ≤ 30 below the configured
maximum, and an initial delay whose product with 2^k is an `int`,
`ScheduleWriteRetry(p, k)` appends exactly one entry at the back of the queue,
with payload p, `retry_count` k and `next_retry` = now + initial delay * 2^k ms,
keeps the entries before it and does not invoke the callback. -/
theorem C9_retry_delay (cb : Bool) (s : NutanixGrpcBidiStreamHandler W) (p : W)
    (k now : Int) (h0 : 0 ≤ k) (h30 : k ≤ 30) (hk : k < s.max_write_retry_attempts_)
    (hlo : -2147483648 ≤ s.write_retry_initial_delay_ms_ * 2 ^ k.toNat)
    (hhi : s.write_retry_initial_delay_ms_ * 2 ^ k.toNat < 2147483648) :
    (ScheduleWriteRetry cb s p k now).1.write_queue_ =
      s.write_queue_ ++
        [{ write_val := p, retry_count := k,
           next_retry := now + s.write_retry_initial_delay_ms_ * 2 ^ k.toNat }] ∧
    callbacks (ScheduleWriteRetry cb s p k now).2.2 = [] := by
  unfold ScheduleWriteRetry
  rw [if_neg (by omega)]
  simp only [QueuedWrite.ctor, shl32_one k h0 h30, wrap32_of_range _ hlo hhi]
  exact ⟨trivial, rfl⟩

/-- C9 under the default flags (maximum 3, initial delay 100) at time 1000: the
delays for k = 0, 1, 2 are 100, 200 and 400 ms. -/
theorem C9_retry_delay_witness :
    ((ScheduleWriteRetry true handler_busy 7 0 1000).1.write_queue_ =
        handler_busy.write_queue_ ++ [{ write_val := 7, retry_count := 0, next_retry := 1100 }] ∧
      callbacks (ScheduleWriteRetry true handler_busy 7 0 1000).2.2 = []) ∧
    ((ScheduleWriteRetry true handler_busy 7 1 1000).1.write_queue_ =
        handler_busy.write_queue_ ++ [{ write_val := 7, retry_count := 1, next_retry := 1200 }] ∧
      callbacks (ScheduleWriteRetry true handler_busy 7 1 1000).2.2 = []) ∧
    ((ScheduleWriteRetry true handler_busy 7 2 1000).1.write_queue_ =
        handler_busy.write_queue_ ++ [{ write_val := 7, retry_count := 2, next_retry := 1400 }] ∧
      callbacks (ScheduleWriteRetry true handler_busy 7 2 1000).2.2 = []) :=
  ⟨C9_retry_delay true handler_busy 7 0 1000 (by decide) (by decide) (by decide) (by decide)
      (by decide),
    C9_retry_delay true handler_busy 7 1 1000 (by decide) (by decide) (by decide) (by decide)
      (by decide),
    C9_retry_delay true handler_busy 7 2 1000 (by decide) (by decide) (by decide) (by decide)
      (by decide)⟩

/-- C9 as stated fails: with maximum 32 and initial delay 1, attempt count 31 is
below the maximum, yet the entry is queued with `next_retry` = now - 2^31 ms
(`1 << 31` is the most negative `int`), not now + 1 * 2^31 ms. -/
theorem C9_counterexample :
    (31 : Int) < (NutanixGrpcBidiStreamHandler.ctor Nat 32 1).max_write_retry_attempts_ ∧
    (ScheduleWriteRetry true (NutanixGrpcBidiStreamHandler.ctor Nat 32 1) 7 31 0).1.write_queue_ =
      [{ write_val := 7, retry_count := 31, next_retry := -2147483648 }] ∧
    ¬ ((ScheduleWriteRetry true (NutanixGrpcBidiStreamHandler.ctor Nat 32 1) 7 31 0).1.write_queue_ =
      (NutanixGrpcBidiStreamHandler.ctor Nat 32 1).write_queue_ ++
        [{ write_val := 7, retry_count := 31,
           next_retry := 0 + (NutanixGrpcBidiStreamHandler.ctor Nat 32 1).write_retry_initial_delay_ms_
             * 2 ^ 31 }]) := by
  decide

/-- C10. `ScheduleWriteRetry(p, k)` invokes the application callback exactly
when k is at least the configured maximum of retry attempts; it then invokes it
exactly once, with (`kAborted`, p), and leaves the queue, the in-progress flag
and the closing flags unchanged. -/
theorem C10_abort_at_maximum (cb : Bool) (s : NutanixGrpcBidiStreamHandler W) (p : W)
    (k now : Int) :
    (callbacks (ScheduleWriteRetry cb s p k now).2.2 ≠ [] ↔ k ≥ s.max_write_retry_attempts_) ∧
    (k ≥ s.max_write_retry_attempts_ →
      callbacks (ScheduleWriteRetry cb s p k now).2.2 = [(WriteStatus.kAborted, p)] ∧
      (ScheduleWriteRetry cb s p k now).1 = s ∧
      (ScheduleWriteRetry cb s p k now).1.write_queue_ = s.write_queue_ ∧
      (ScheduleWriteRetry cb s p k now).1.write_in_progress_ = s.write_in_progress_ ∧
      (ScheduleWriteRetry cb s p k now).1.writes_done_ = s.writes_done_ ∧
      (ScheduleWriteRetry cb s p k now).1.stream_cancelled_ = s.stream_cancelled_ ∧
      (ScheduleWriteRetry cb s p k now).1.stream_finished_ = s.stream_finished_) := by
  unfold ScheduleWriteRetry
  by_cases h : k ≥ s.max_write_retry_attempts_
  · simp [h, callbacks]
  · simp [h, callbacks]

/-- C10 at `handler_busy` (maximum 3) with attempt count 3: one callback with
(`kAborted`, 7) and an unchanged handler. -/
theorem C10_abort_at_maximum_witness :
    (3 : Int) ≥ handler_busy.max_write_retry_attempts_ ∧
    (callbacks (ScheduleWriteRetry true handler_busy 7 3 1000).2.2 =
        [(WriteStatus.kAborted, 7)] ∧
      (ScheduleWriteRetry true handler_busy 7 3 1000).1 = handler_busy ∧
      (ScheduleWriteRetry true handler_busy 7 3 1000).1.write_queue_ =
        handler_busy.write_queue_ ∧
      (ScheduleWriteRetry true handler_busy 7 3 1000).1.write_in_progress_ =
        handler_busy.write_in_progress_ ∧
      (ScheduleWriteRetry true handler_busy 7 3 1000).1.writes_done_ =
        handler_busy.writes_done_ ∧
      (ScheduleWriteRetry true handler_busy 7 3 1000).1.stream_cancelled_ =
        handler_busy.stream_cancelled_ ∧
      (ScheduleWriteRetry true handler_busy 7 3 1000).1.stream_finished_ =
        handler_busy.stream_finished_) :=
  ⟨by decide, (C10_abort_at_maximum true handler_busy 7 3 1000).2 (by decide)⟩

/-- C11, as amended. In a run from the constructor's state whose written
payloads are pairwise distinct, let p be accepted by `WriteToStream` and let q
be written later and queued (`kQueuedForRetry`). Then q is not handed to the
transport before p is: either the first submission of p precedes every
submission of q, or q has not been submitted yet. This holds whatever else is
in the queue, also with a retry waiting at its head, and whether or not p or q
fail later. -/
theorem C11_queued_fifo [DecidableEq W] (cb : Bool) (flag_max flag_delay : Int)
    (a b c : List (Op W)) (p q : W) (t1 t2 : Int) (sa sb s : Sys W)
    (hd : (written (a ++ Op.write p t1 :: (b ++ Op.write q t2 :: c))).Nodup)
    (ha : Sys.run cb (Sys.init W flag_max flag_delay) a = some sa)
    (hp : (WriteToStream sa.handler p t1).2.1 ≠ WriteStatus.kWriteEndClosed)
    (hb : Sys.run cb sa (Op.write p t1 :: b) = some sb)
    (hq : (WriteToStream sb.handler q t2).2.1 = WriteStatus.kQueuedForRetry)
    (hc : Sys.run cb sb (Op.write q t2 :: c) = some s) :
    first_before p q (submitted s.trace) = true ∨ q ∉ submitted s.trace := by
  -- the written payloads, split at q
  have hwr : written (a ++ Op.write p t1 :: (b ++ Op.write q t2 :: c)) =
      written (a ++ Op.write p t1 :: b) ++ q :: written c := by
    rw [written_append, written_cons, written_append, written_cons (Op.write q t2),
      written_append, written_cons (Op.write p t1) b]
    simp [written]
  rw [hwr] at hd
  have hqpre : q ∉ written (a ++ Op.write p t1 :: b) := fun hm =>
    (List.nodup_append.mp hd).2.2 hm (List.mem_cons_self _ _)
  have hqc : q ∉ written c := by
    have := (List.nodup_append.mp hd).2.1
    exact (List.nodup_cons.mp this).1
  -- the state before q is written
  have hrunb : Sys.run cb (Sys.init W flag_max flag_delay) (a ++ Op.write p t1 :: b) = some sb := by
    rw [run_append cb a _ _ sa ha]
    exact hb
  obtain ⟨hinvb, hslotb⟩ := run_conserve cb _ (Sys.init W flag_max flag_delay) sb
    (fun x => by simp [Sys.init, NutanixGrpcBidiStreamHandler.ctor, in_flight, queued, delivered,
      callbacks])
    (fun _ _ => rfl) hrunb
  have hsubb := run_submitted_accepted cb _ (Sys.init W flag_max flag_delay) sb
    (fun x => by simp [Sys.init, NutanixGrpcBidiStreamHandler.ctor, in_flight, queued, delivered,
      callbacks])
    (fun _ _ => rfl) (fun x hx => by simp [Sys.init, submitted] at hx) hrunb
  obtain ⟨l, hl, hacc⟩ := run_accepted cb _ (Sys.init W flag_max flag_delay) sb hrunb
  have hqacc : q ∉ sb.accepted := by
    rw [hacc]
    simp only [Sys.init, List.nil_append]
    exact fun hm => hqpre (hl.subset hm)
  have hqsub : q ∉ submitted sb.trace := fun hm => hqacc (hsubb q hm)
  have hqque : q ∉ queued sb.handler := by
    intro hm
    have h1 : 0 < (queued sb.handler).count q := List.count_pos_iff.mpr hm
    have h2 := hinvb q
    exact hqacc (List.count_pos_iff.mp (by omega))
  -- p is queued or submitted from its acceptance on
  have hpb : p ∈ queued sb.handler ∨ p ∈ submitted sb.trace := by
    simp only [Sys.run] at hb
    split at hb
    · cases hb
    · rename_i sp hsp
      refine run_queued_or_submitted cb b sp sb p ?_ hb
      simp only [Sys.step, Option.some.injEq] at hsp
      subst hsp
      rcases WriteToStream_accepted sa.handler p t1 hp with h1 | h1
      · exact Or.inl h1
      · exact Or.inr (by
          show p ∈ submitted (sa.trace ++ (WriteToStream sa.handler p t1).2.2)
          rw [submitted_append]
          exact List.mem_append_right _ h1)
  -- q is queued behind p, then the rest of the run
  simp only [Sys.run] at hc
  split at hc
  · cases hc
  · rename_i sq hsq
    simp only [Sys.step, Option.some.injEq] at hsq
    subst hsq
    obtain ⟨hq1, hq2⟩ := WriteToStream_queued sb.handler q t2 hq
    have hsame : submitted (sb.trace ++ (WriteToStream sb.handler q t2).2.2) =
        submitted sb.trace := by
      rw [submitted_append, hq2, List.append_nil]
    have hfin := run_order cb c _ s p q hqc (by
      show first_before p q (submitted (sb.trace ++ (WriteToStream sb.handler q t2).2.2)) = true ∨
        (q ∉ submitted (sb.trace ++ (WriteToStream sb.handler q t2).2.2) ∧
          ∃ u v, queued (WriteToStream sb.handler q t2).1 = u ++ q :: v ∧ p ∈ u ∧ q ∉ u)
      rw [hsame]
      rcases hpb with h1 | h1
      · by_cases hps : p ∈ submitted sb.trace
        · exact Or.inl (first_before_of_mem p q _ hps hqsub)
        · exact Or.inr ⟨hqsub, queued sb.handler, [], hq1, h1, hqque⟩
      · exact Or.inl (first_before_of_mem p q _ h1 hqsub)) hc
    rcases hfin with h1 | ⟨h1, _⟩
    · exact Or.inl h1
    · exact Or.inr h1

/-- C11 as amended, at a run with a retry waiting at the head of the queue:
writes 3 and 5 are queued in that order behind the retry of write 1, and the
payloads are submitted in the order 1, 2, 1, 3, 5, write 3 before write 5. -/
theorem C11_queued_fifo_witness :
    (written (run_fifo_start ++ Op.write 3 3 :: ([] ++ Op.write 5 5 :: run_fifo_rest))).Nodup ∧
    Sys.run true (Sys.init Nat 3 100) run_fifo_start = some state_fifo_a ∧
    (WriteToStream state_fifo_a.handler 3 3).2.1 ≠ WriteStatus.kWriteEndClosed ∧
    Sys.run true state_fifo_a (Op.write 3 3 :: []) = some state_fifo_b ∧
    (WriteToStream state_fifo_b.handler 5 5).2.1 = WriteStatus.kQueuedForRetry ∧
    Sys.run true state_fifo_b (Op.write 5 5 :: run_fifo_rest) = some state_fifo_end ∧
    submitted state_fifo_end.trace = [1, 2, 1, 3, 5] ∧
    (first_before 3 5 (submitted state_fifo_end.trace) = true ∨
      5 ∉ submitted state_fifo_end.trace) :=
  ⟨by decide, by decide, by decide, by decide, by decide, by decide, by decide,
    C11_queued_fifo true 3 100 run_fifo_start [] run_fifo_rest 3 5 3 5
      state_fifo_a state_fifo_b state_fifo_end
      (by decide) (by decide) (by decide) (by decide) (by decide) (by decide)⟩

/-- C11 as stated fails. Under the default flags, at `run_fifo_bypass`, the only
failed completion arrives while write 1 is in flight, so writes 3 and 4 are
never retried. After the first five operations the stream is idle and the
retry of write 1 (due at 101) is at the head of the queue with write 3 behind
it. Write 4, accepted after write 3, is then handed to the transport at once,
while write 3 still waits. Over the whole run the payloads were accepted in the
order 1, 2, 3, 4 and handed to the transport in the order 1, 2, 4, 1, 3: write 3
is not submitted before write 4. -/
theorem C11_counterexample :
    (Sys.run true (Sys.init Nat 3 100) (run_fifo_bypass.take 1)).map
      (fun s => in_flight s.handler) = some [1] ∧
    (Sys.run true (Sys.init Nat 3 100) (run_fifo_bypass.take 5)).map
      (fun s => (s.handler.write_in_progress_, queued s.handler)) = some (false, [1, 3]) ∧
    (Sys.run true (Sys.init Nat 3 100) (run_fifo_bypass.take 6)).map
      (fun s => (s.accepted, submitted s.trace, queued s.handler)) =
      some ([1, 2, 3, 4], [1, 2, 4], [1, 3]) ∧
    (Sys.run true (Sys.init Nat 3 100) run_fifo_bypass).map
      (fun s => (s.accepted, submitted s.trace, callbacks s.trace)) =
      some ([1, 2, 3, 4], [1, 2, 4, 1, 3],
        [(WriteStatus.kNoError, 2), (WriteStatus.kNoError, 4), (WriteStatus.kNoError, 1),
         (WriteStatus.kNoError, 3)]) ∧
    (Sys.run true (Sys.init Nat 3 100) run_fifo_bypass).map
      (fun s => first_before 3 4 (submitted s.trace)) = some false := by
  refine ⟨?_, ?_, ?_, ?_, ?_⟩ <;> decide

/-- C12. With a write in flight, no closing flag set and a queue whose head is
due (`next_retry` ≤ now), `WriteDoneEvent(true)` returns, hands exactly the
head's payload to the transport, makes it the payload in flight, and leaves
the rest of the queue, in its order, as the new queue. -/
theorem C12_success_dispatches_head (cb : Bool) (s : NutanixGrpcBidiStreamHandler W)
    (cur : W) (head : QueuedWrite W) (rest : List (QueuedWrite W)) (now_retry now_next : Int)
    (hval : s.write_val_ = some cur) (hwip : s.write_in_progress_ = true)
    (hwd : s.writes_done_ = false) (hsc : s.stream_cancelled_ = false)
    (hsf : s.stream_finished_ = false) (hq : s.write_queue_ = head :: rest)
    (hdue : head.next_retry ≤ now_next) :
    ∃ r, WriteDoneEvent cb s true now_retry now_next = Except.ok r ∧
      submitted r.2 = [head.write_val] ∧
      r.1.write_val_ = some head.write_val ∧
      r.1.write_in_progress_ = true ∧
      r.1.write_queue_ = rest := by
  have hnl : ¬ now_next < head.next_retry := not_lt.mpr hdue
  refine ⟨_, by simp only [WriteDoneEvent, hval, hwip]; rfl, ?_⟩
  simp [ProcessNextWrite, hq, hwd, hsc, hsf, hnl, submitted]

/-- C12 at `handler_three_queued`: after the write in flight completes, write 1
(A) is dispatched and the queue is 2, 3 (B, C). -/
theorem C12_success_dispatches_head_witness :
    ∃ r, WriteDoneEvent true handler_three_queued true 20 20 = Except.ok r ∧
      submitted r.2 = [1] ∧
      r.1.write_val_ = some 1 ∧
      r.1.write_in_progress_ = true ∧
      r.1.write_queue_ = [{ write_val := 2, retry_count := 0, next_retry := 11 },
                          { write_val := 3, retry_count := 0, next_retry := 12 }] :=
  C12_success_dispatches_head true handler_three_queued 7
    { write_val := 1, retry_count := 0, next_retry := 10 }
    [{ write_val := 2, retry_count := 0, next_retry := 11 },
     { write_val := 3, retry_count := 0, next_retry := 12 }] 20 20
    rfl rfl rfl rfl rfl rfl (by decide)

/-- C13. With payload p in flight, `WriteDoneEvent(true)` returns and invokes
the application callback exactly once, with (`kNoError`, p): the payload that
completed, also when the dispatch loop has put the queue head in flight. It
never passes `kAborted`. Afterwards `write_in_progress_` is true only if the
dispatch loop dispatched the queue head. -/
theorem C13_success_callback (cb : Bool) (s : NutanixGrpcBidiStreamHandler W) (p : W)
    (now_retry now_next : Int)
    (hval : s.write_val_ = some p) (hwip : s.write_in_progress_ = true) :
    ∃ r, WriteDoneEvent cb s true now_retry now_next = Except.ok r ∧
      callbacks r.2 = [(WriteStatus.kNoError, p)] ∧
      (r.1.write_in_progress_ = true →
        ∃ head rest, s.write_queue_ = head :: rest ∧ submitted r.2 = [head.write_val] ∧
          r.1.write_val_ = some head.write_val ∧ r.1.write_queue_ = rest) := by
  refine ⟨_, by simp only [WriteDoneEvent, hval, hwip]; rfl, ?_, ?_⟩
  · simp [callbacks_append, ProcessNextWrite_callbacks, callbacks]
  · intro hw
    rcases ProcessNextWrite_cases { s with write_val_ := none, write_in_progress_ := false }
      now_next with h0 | ⟨nw, rest, hq, _, _, _, _, _, h1⟩
    · change (ProcessNextWrite { s with write_val_ := none, write_in_progress_ := false }
        now_next).1.write_in_progress_ = true at hw
      rw [h0] at hw
      cases hw
    · refine ⟨nw, rest, hq, ?_⟩
      change submitted ([Event.lock_acquired] ++
          (ProcessNextWrite { s with write_val_ := none, write_in_progress_ := false }
            now_next).2 ++ [Event.stream_write_done_cb WriteStatus.kNoError p,
              Event.lock_released]) = [nw.write_val] ∧
        (ProcessNextWrite { s with write_val_ := none, write_in_progress_ := false }
          now_next).1.write_val_ = some nw.write_val ∧
        (ProcessNextWrite { s with write_val_ := none, write_in_progress_ := false }
          now_next).1.write_queue_ = rest
      rw [h1]
      exact ⟨rfl, rfl, rfl⟩

/-- C13 at `handler_three_queued`: the callback gets payload 7, which completed,
not payload 1, which is in flight afterwards. -/
theorem C13_success_callback_witness :
    ∃ r, WriteDoneEvent true handler_three_queued true 20 20 = Except.ok r ∧
      callbacks r.2 = [(WriteStatus.kNoError, 7)] ∧
      (r.1.write_in_progress_ = true →
        ∃ head rest, handler_three_queued.write_queue_ = head :: rest ∧
          submitted r.2 = [head.write_val] ∧
          r.1.write_val_ = some head.write_val ∧ r.1.write_queue_ = rest) :=
  C13_success_callback true handler_three_queued 7 20 20 rfl rfl

/-- C16, evaluated. In every execution of `WriteDoneEvent` every invocation of
the application callback happens while a scoped locker on `spin_rw_lock_` is
alive. On the success path, at `handler_three_queued`, the locker taken before
`write_in_progress_` is cleared is released only after the callback with
(`kNoError`, 7). On the failure path with the retries exhausted, at
`handler_retry_exhausted` (reached by `run_retry_exhausted`), the callback with
(`kAborted`, 7) is invoked from `ScheduleWriteRetry` inside the locker of
`WriteDoneEvent`. -/
theorem C16_callback_while_locked :
    (∀ (cb : Bool) (s : NutanixGrpcBidiStreamHandler Nat) (ok : Bool) (now_retry now_next : Int),
      callbacks_under_lock 0 (outcome_events (WriteDoneEvent cb s ok now_retry now_next)) =
        callbacks (outcome_events (WriteDoneEvent cb s ok now_retry now_next))) ∧
    outcome_events (WriteDoneEvent true handler_three_queued true 20 20) =
      [Event.lock_acquired, Event.lock_acquired, Event.stream_Write 1, Event.lock_released,
       Event.stream_write_done_cb WriteStatus.kNoError 7, Event.lock_released] ∧
    callbacks_under_lock 0 (outcome_events (WriteDoneEvent true handler_three_queued true 20 20)) =
      [(WriteStatus.kNoError, 7)] ∧
    (Sys.run true (Sys.init Nat 3 100) run_retry_exhausted).map Sys.handler =
      some handler_retry_exhausted ∧
    outcome_events (WriteDoneEvent true handler_retry_exhausted false 203 203) =
      [Event.lock_acquired, Event.stream_write_done_cb WriteStatus.kAborted 7,
       Event.lock_acquired, Event.lock_released, Event.lock_released] ∧
    callbacks_under_lock 0
        (outcome_events (WriteDoneEvent true handler_retry_exhausted false 203 203)) =
      [(WriteStatus.kAborted, 7)] := by
  refine ⟨?_, by decide, by decide, by decide, by decide, by decide⟩
  intro cb s ok now_retry now_next
  unfold WriteDoneEvent
  split
  · rfl
  · rename_i cur hcur
    split
    · rfl
    · split
      · simp only [outcome_events]
        rcases ProcessNextWrite_cases
          { (ScheduleWriteRetry cb { s with write_in_progress_ := false } cur
              (failure_retry_count { s with write_in_progress_ := false }) now_retry).1 with
            write_val_ := (ScheduleWriteRetry cb { s with write_in_progress_ := false } cur
              (failure_retry_count { s with write_in_progress_ := false }) now_retry).2.1 }
          now_next with h0 | ⟨nw, rest, _, _, _, _, _, _, h1⟩
        · rw [h0]
          unfold ScheduleWriteRetry
          split <;> simp [callbacks_under_lock, callbacks]
        · rw [h1]
          unfold ScheduleWriteRetry
          split <;> simp [callbacks_under_lock, callbacks]
      · simp only [outcome_events]
        rcases ProcessNextWrite_cases
          { s with write_val_ := none, write_in_progress_ := false }
          now_next with h0 | ⟨nw, rest, _, _, _, _, _, _, h1⟩
        · rw [h0]
          simp [callbacks_under_lock, callbacks]
        · rw [h1]
          simp [callbacks_under_lock, callbacks]

/-- C17, as amended. With payload p in flight and a closing flag set,
`WriteDoneEvent` returns with either outcome, clears `write_in_progress_` and
hands nothing to the transport. On success it invokes the callback once, with
(`kNoError`, p), and leaves the queue as it is. On failure it either invokes the
callback once, with (`kAborted`, p), and leaves the queue as it is, or it
appends an entry for p at the back of the queue and does not invoke the
callback. -/
theorem C17_completion_under_closing (cb : Bool) (s : NutanixGrpcBidiStreamHandler W) (p : W)
    (ok : Bool) (now_retry now_next : Int)
    (hval : s.write_val_ = some p) (hwip : s.write_in_progress_ = true)
    (hcl : s.writes_done_ = true ∨ s.stream_cancelled_ = true ∨ s.stream_finished_ = true) :
    ∃ r, WriteDoneEvent cb s ok now_retry now_next = Except.ok r ∧
      r.1.write_in_progress_ = false ∧
      submitted r.2 = [] ∧
      (ok = true →
        callbacks r.2 = [(WriteStatus.kNoError, p)] ∧ r.1.write_queue_ = s.write_queue_) ∧
      (ok = false →
        (callbacks r.2 = [(WriteStatus.kAborted, p)] ∧ r.1.write_queue_ = s.write_queue_) ∨
        (callbacks r.2 = [] ∧
          ∃ e : QueuedWrite W, e.write_val = p ∧ r.1.write_queue_ = s.write_queue_ ++ [e])) := by
  have hex : ∃ r, WriteDoneEvent cb s ok now_retry now_next = Except.ok r := by
    simp only [WriteDoneEvent, hval, hwip]
    cases ok <;> exact ⟨_, rfl⟩
  obtain ⟨r, hr⟩ := hex
  obtain ⟨_, h2, h3, _, _⟩ := WriteDoneEvent_closing cb s ok now_retry now_next r hcl hr
  refine ⟨r, hr, h2, h3, ?_, ?_⟩
  · intro hok
    subst hok
    refine ⟨WriteDoneEvent_success_callbacks cb s p now_retry now_next r hval hr, ?_⟩
    simp only [WriteDoneEvent, hval, hwip] at hr
    injection hr with hr
    subst hr
    simp only [Bool.not_true, Bool.false_eq_true, if_false]
    rw [ProcessNextWrite_closing _ now_next (by exact hcl)]
  · intro hok
    subst hok
    unfold WriteDoneEvent at hr
    split at hr
    · cases hr
    · rename_i cur hcur
      have hcp : cur = p := by
        rw [hval] at hcur
        exact (Option.some.inj hcur).symm
      subst hcp
      split at hr
      · cases hr
      · split at hr
        · injection hr with hr
          subst hr
          have hf := ScheduleWriteRetry_frame cb { s with write_in_progress_ := false } cur
            (failure_retry_count { s with write_in_progress_ := false }) now_retry
          have hcl2 : (ScheduleWriteRetry cb { s with write_in_progress_ := false } cur
              (failure_retry_count { s with write_in_progress_ := false })
                now_retry).1.writes_done_ = true ∨
              (ScheduleWriteRetry cb { s with write_in_progress_ := false } cur
              (failure_retry_count { s with write_in_progress_ := false })
                now_retry).1.stream_cancelled_ = true ∨
              (ScheduleWriteRetry cb { s with write_in_progress_ := false } cur
              (failure_retry_count { s with write_in_progress_ := false })
                now_retry).1.stream_finished_ = true := by
            rw [hf.2.2.1, hf.2.2.2.1, hf.2.2.2.2]
            exact hcl
          simp only []
          rw [ProcessNextWrite_closing _ now_next (by exact hcl2)]
          simp only [callbacks_append]
          have e1 : callbacks [(Event.lock_acquired : Event W)] = [] := rfl
          have e2 : callbacks [(Event.lock_acquired : Event W), Event.lock_released] = [] :=
            rfl
          have e3 : callbacks [(Event.lock_released : Event W)] = [] := rfl
          simp only [e1, e2, e3, List.nil_append, List.append_nil]
          unfold ScheduleWriteRetry
          split
          · exact Or.inl ⟨rfl, rfl⟩
          · exact Or.inr ⟨rfl, _, rfl, rfl⟩
        · rename_i hne
          exact absurd rfl hne

/-- C17 at `handler_cancelled` with ok = false: write 7 is appended to the queue
and no callback is invoked. -/
theorem C17_completion_under_closing_witness :
    ∃ r, WriteDoneEvent true handler_cancelled false 5 5 = Except.ok r ∧
      r.1.write_in_progress_ = false ∧
      submitted r.2 = [] ∧
      (false = true →
        callbacks r.2 = [(WriteStatus.kNoError, 7)] ∧
          r.1.write_queue_ = handler_cancelled.write_queue_) ∧
      (false = false →
        (callbacks r.2 = [(WriteStatus.kAborted, 7)] ∧
          r.1.write_queue_ = handler_cancelled.write_queue_) ∨
        (callbacks r.2 = [] ∧
          ∃ e : QueuedWrite Nat, e.write_val = 7 ∧
            r.1.write_queue_ = handler_cancelled.write_queue_ ++ [e])) :=
  C17_completion_under_closing true handler_cancelled 7 false 5 5 rfl rfl (Or.inr (Or.inl rfl))

/-- C17 as stated fails. At `handler_cancelled` (write 7 in flight, the stream
cancelled; reached by three writes and the cancellation) the failed completion
of write 7 returns without invoking the application callback: payload 7 is put
at the back of the queue instead. -/
theorem C17_counterexample :
    (Sys.run true (Sys.init Nat 3 100)
        [Op.write 7 0, Op.write 8 1, Op.write 9 2, Op.set_stream_cancelled]).map Sys.handler =
      some handler_cancelled ∧
    handler_cancelled.stream_cancelled_ = true ∧
    handler_cancelled.write_val_ = some 7 ∧
    handler_cancelled.write_in_progress_ = true ∧
    (WriteDoneEvent true handler_cancelled false 5 5).toBool = true ∧
    callbacks (outcome_events (WriteDoneEvent true handler_cancelled false 5 5)) = [] ∧
    (outcome_handler (WriteDoneEvent true handler_cancelled false 5 5)).map
        (fun h => (h.write_in_progress_, queued h)) = some (false, [8, 9, 7]) := by
  refine ⟨?_, ?_, ?_, ?_, ?_, ?_, ?_⟩ <;> decide

/-- C18. `ProcessNextWrite` leaves the state unchanged and submits nothing
exactly when a write is in progress, or the queue is empty, or a closing flag
is set, or the queue head's `next_retry` is later than now. Otherwise it
submits exactly the head's payload, sets `write_in_progress_`, puts the head's
payload into `write_val_` and removes the head, keeping the rest in order. In
every case it submits at most one write, and only the payload of the queue
head. -/
theorem C18_dispatch_loop (s : NutanixGrpcBidiStreamHandler W) (now : Int) :
    (((ProcessNextWrite s now).1 = s ∧ submitted (ProcessNextWrite s now).2 = []) ↔
      (s.write_in_progress_ = true ∨ s.write_queue_ = [] ∨ s.writes_done_ = true ∨
        s.stream_cancelled_ = true ∨ s.stream_finished_ = true ∨
        ∃ head rest, s.write_queue_ = head :: rest ∧ now < head.next_retry)) ∧
    (¬ (s.write_in_progress_ = true ∨ s.write_queue_ = [] ∨ s.writes_done_ = true ∨
        s.stream_cancelled_ = true ∨ s.stream_finished_ = true ∨
        ∃ head rest, s.write_queue_ = head :: rest ∧ now < head.next_retry) →
      ∃ head rest, s.write_queue_ = head :: rest ∧
        submitted (ProcessNextWrite s now).2 = [head.write_val] ∧
        (ProcessNextWrite s now).1.write_in_progress_ = true ∧
        (ProcessNextWrite s now).1.write_val_ = some head.write_val ∧
        (ProcessNextWrite s now).1.write_queue_ = rest) ∧
    (submitted (ProcessNextWrite s now).2).length ≤ 1 ∧
    (∀ p ∈ submitted (ProcessNextWrite s now).2,
      ∃ head rest, s.write_queue_ = head :: rest ∧ p = head.write_val) := by
  rcases ProcessNextWrite_cases s now with h0 | ⟨nw, rest, hq, hwip, hwd, hsc, hsf, hdue, h1⟩
  · have hcond : s.write_in_progress_ = true ∨ s.write_queue_ = [] ∨ s.writes_done_ = true ∨
        s.stream_cancelled_ = true ∨ s.stream_finished_ = true ∨
        ∃ head rest, s.write_queue_ = head :: rest ∧ now < head.next_retry := by
      by_contra hc
      simp only [not_or, Bool.not_eq_true, not_exists, not_and, not_lt] at hc
      obtain ⟨c1, c2, c3, c4, c5, c6⟩ := hc
      cases hq : s.write_queue_ with
      | nil => exact c2 hq
      | cons head rest =>
        have hnl : ¬ now < head.next_retry := not_lt.mpr (c6 head rest hq)
        have hs : submitted (ProcessNextWrite s now).2 = [head.write_val] := by
          simp [ProcessNextWrite, c1, c3, c4, c5, hq, hnl, submitted]
        rw [h0] at hs
        cases hs
    rw [h0]
    exact ⟨⟨fun _ => hcond, fun _ => ⟨rfl, rfl⟩⟩, fun hn => absurd hcond hn,
      by simp [submitted], by simp [submitted]⟩
  · have hncond : ¬ (s.write_in_progress_ = true ∨ s.write_queue_ = [] ∨
        s.writes_done_ = true ∨ s.stream_cancelled_ = true ∨ s.stream_finished_ = true ∨
        ∃ head rest, s.write_queue_ = head :: rest ∧ now < head.next_retry) := by
      simp only [not_or, Bool.not_eq_true, not_exists, not_and, not_lt]
      refine ⟨hwip, by simp [hq], hwd, hsc, hsf, ?_⟩
      intro head rest1 hq1
      rw [hq] at hq1
      cases hq1
      exact hdue
    rw [h1]
    refine ⟨⟨fun hl => ?_, fun hc => absurd hc hncond⟩, fun _ => ⟨nw, rest, hq, rfl, rfl, rfl, rfl⟩,
      by simp [submitted], ?_⟩
    · have := congrArg NutanixGrpcBidiStreamHandler.write_in_progress_ hl.1
      rw [hwip] at this
      cases this
    · intro p hp
      refine ⟨nw, rest, hq, ?_⟩
      simpa [submitted] using hp

/-- C18 at `handler_head_waiting` and time 50: the head (the retry of write 1)
is not due, so nothing is dispatched, although write 3 behind it is due. -/
theorem C18_dispatch_loop_witness :
    (ProcessNextWrite handler_head_waiting 50).1 = handler_head_waiting ∧
    submitted (ProcessNextWrite handler_head_waiting 50).2 = [] :=
  (C18_dispatch_loop handler_head_waiting 50).1.mpr
    (Or.inr (Or.inr (Or.inr (Or.inr (Or.inr ⟨_, _, rfl, by decide⟩)))))

/-- C20. When the callback takes the handle it is given, in every state
reachable from the constructor's state the slot `write_val_` holds a payload
exactly when `write_in_progress_` is true. Hence `DCHECK(!write_val_)` holds
whenever `WriteToStream` can take its idle path, and when a transport write is
outstanding `WriteDoneEvent` passes `DCHECK(write_val_)` and
`CHECK(write_in_progress_)` and returns, with either outcome. -/
theorem C20_assertions_hold (flag_max flag_delay : Int) (ops : List (Op W)) (s : Sys W)
    (h : Sys.run true (Sys.init W flag_max flag_delay) ops = some s) :
    (s.handler.write_val_.isSome = true ↔ s.handler.write_in_progress_ = true) ∧
    (s.handler.write_in_progress_ = false → WriteToStream_dcheck_idle s.handler = true) ∧
    (s.outstanding ≠ 0 → ∀ (ok : Bool) (now_retry now_next : Int),
      ∃ r, WriteDoneEvent true s.handler ok now_retry now_next = Except.ok r) := by
  have hsf := run_single_flight true ops (Sys.init W flag_max flag_delay) s rfl h
  have hslot := run_slot true ops (Sys.init W flag_max flag_delay) s
    (fun hw => by simp [Sys.init, NutanixGrpcBidiStreamHandler.ctor] at hw) h
  have hidle : s.handler.write_in_progress_ = false → s.handler.write_val_ = none := by
    classical
    exact (run_conserve true ops (Sys.init W flag_max flag_delay) s
      (fun q => by simp [Sys.init, NutanixGrpcBidiStreamHandler.ctor, in_flight, queued,
        delivered, callbacks])
      (fun _ _ => rfl) h).2 rfl
  refine ⟨⟨fun hv => ?_, hslot⟩, fun hw => ?_, fun ho ok now_retry now_next => ?_⟩
  · cases hw : s.handler.write_in_progress_ with
    | true => rfl
    | false =>
      rw [hidle hw] at hv
      cases hv
  · simp [WriteToStream_dcheck_idle, hidle hw]
  · have hw : s.handler.write_in_progress_ = true := by
      cases hw : s.handler.write_in_progress_ with
      | true => rfl
      | false =>
        rw [hw] at hsf
        exact absurd hsf ho
    have hv := hslot hw
    cases hval : s.handler.write_val_ with
    | none =>
      rw [hval] at hv
      cases hv
    | some cur =>
      simp only [WriteDoneEvent, hval, hw]
      cases ok <;> exact ⟨_, rfl⟩

/-- C20 at the run `run_two_writes`: write 8 is in flight, the slot holds it,
and the completion of the outstanding write returns. -/
theorem C20_assertions_hold_witness :
    Sys.run true (Sys.init Nat 3 100) run_two_writes = some state_two_writes ∧
    ((state_two_writes.handler.write_val_.isSome = true ↔
        state_two_writes.handler.write_in_progress_ = true) ∧
      (state_two_writes.handler.write_in_progress_ = false →
        WriteToStream_dcheck_idle state_two_writes.handler = true) ∧
      (state_two_writes.outstanding ≠ 0 → ∀ (ok : Bool) (now_retry now_next : Int),
        ∃ r, WriteDoneEvent true state_two_writes.handler ok now_retry now_next =
          Except.ok r)) :=
  ⟨by decide, C20_assertions_hold 3 100 run_two_writes state_two_writes (by decide)⟩

/-- C19. With a configured maximum that is an `int` and at least 1, in every
state reachable from the constructor's state every entry of `write_queue_` has
a retry count between 0 and the maximum minus one, and the count that a failed
completion hands to `ScheduleWriteRetry` is between 0 and the maximum. Under
the default flags (maximum 3, initial delay 100) the delay belonging to the
count of every queue entry, and the delay of the retry that the next failure
queues, is 100, 200 or 400 ms and equals the exact product 100 * 2^count: the
shift count is at most 2 and the `int` multiplication does not overflow. -/
theorem C19_retry_count_bounds (cb : Bool) (flag_max flag_delay : Int) (ops : List (Op W))
    (s : Sys W) (hmin : 1 ≤ flag_max) (hint : flag_max ≤ 2147483647)
    (h : Sys.run cb (Sys.init W flag_max flag_delay) ops = some s) :
    (∀ e ∈ s.handler.write_queue_, 0 ≤ e.retry_count ∧ e.retry_count ≤ flag_max - 1) ∧
    (0 ≤ failure_retry_count s.handler ∧ failure_retry_count s.handler ≤ flag_max) ∧
    (flag_max = 3 → flag_delay = 100 →
      (∀ e ∈ s.handler.write_queue_,
        (delay_ms s.handler e.retry_count = 100 ∨ delay_ms s.handler e.retry_count = 200 ∨
          delay_ms s.handler e.retry_count = 400) ∧
        delay_ms s.handler e.retry_count = 100 * 2 ^ e.retry_count.toNat) ∧
      (failure_retry_count s.handler < 3 →
        ((delay_ms s.handler (failure_retry_count s.handler) = 100 ∨
            delay_ms s.handler (failure_retry_count s.handler) = 200 ∨
            delay_ms s.handler (failure_retry_count s.handler) = 400) ∧
          delay_ms s.handler (failure_retry_count s.handler) =
            100 * 2 ^ (failure_retry_count s.handler).toNat) ∧
        ∀ (p : W) (now : Int),
          (ScheduleWriteRetry cb s.handler p (failure_retry_count s.handler) now).1.write_queue_ =
            s.handler.write_queue_ ++
              [{ write_val := p, retry_count := failure_retry_count s.handler,
                 next_retry := now + delay_ms s.handler (failure_retry_count s.handler) }])) := by
  obtain ⟨hm, hdl, hb⟩ := run_bounds cb ops (Sys.init W flag_max flag_delay) s hmin hint
    (fun e he => by simp [Sys.init, NutanixGrpcBidiStreamHandler.ctor] at he) h
  have hm1 : s.handler.max_write_retry_attempts_ = flag_max := hm
  have hd1 : s.handler.write_retry_initial_delay_ms_ = flag_delay := hdl
  have hb1 : ∀ e ∈ s.handler.write_queue_, 0 ≤ e.retry_count ∧ e.retry_count ≤ flag_max - 1 := hb
  have hk := failure_retry_count_bounds s.handler (by rw [hm1]; exact hmin)
    (by rw [hm1]; exact hint) (fun e he => by rw [hm1]; exact hb1 e he)
  rw [hm1] at hk
  refine ⟨hb1, hk, fun h3 h100 => ⟨fun e he => ?_, fun hlt => ⟨?_, fun p now => ?_⟩⟩⟩
  · have := hb1 e he
    exact delay_ms_default s.handler e.retry_count (by rw [hd1, h100]) this.1 (by omega)
  · exact delay_ms_default s.handler _ (by rw [hd1, h100]) hk.1 (by omega)
  · exact ScheduleWriteRetry_delay cb s.handler p _ now (by rw [hm1, h3]; exact hlt)

/-- C19 at the run `run_two_writes` under the default flags: the queue holds the
retry of write 7 with count 1, whose delay is 200 ms. -/
theorem C19_retry_count_bounds_witness :
    (1 : Int) ≤ 3 ∧ (3 : Int) ≤ 2147483647 ∧
    Sys.run true (Sys.init Nat 3 100) run_two_writes = some state_two_writes ∧
    (∀ e ∈ state_two_writes.handler.write_queue_, 0 ≤ e.retry_count ∧ e.retry_count ≤ 3 - 1) ∧
    (0 ≤ failure_retry_count state_two_writes.handler ∧
      failure_retry_count state_two_writes.handler ≤ 3) ∧
    (∀ e ∈ state_two_writes.handler.write_queue_,
      (delay_ms state_two_writes.handler e.retry_count = 100 ∨
        delay_ms state_two_writes.handler e.retry_count = 200 ∨
        delay_ms state_two_writes.handler e.retry_count = 400) ∧
      delay_ms state_two_writes.handler e.retry_count = 100 * 2 ^ e.retry_count.toNat) :=
  ⟨by decide, by decide, by decide,
    (C19_retry_count_bounds true 3 100 run_two_writes state_two_writes (by decide) (by decide)
      (by decide)).1,
    (C19_retry_count_bounds true 3 100 run_two_writes state_two_writes (by decide) (by decide)
      (by decide)).2.1,
    ((C19_retry_count_bounds true 3 100 run_two_writes state_two_writes (by decide) (by decide)
      (by decide)).2.2 rfl rfl).1⟩

end nutanix.net
